import Mathlib

/-!
# Verification of the address extraction and standardization core (`adr`)

Shallow embedding of the repository's address pipeline:

* `src/prsr.rs` — zip predicates, line-editing pipeline, zip-anchored
  address extraction, per-entity override rules, address validation;
* `src/usps.rs` — standardization client against the external validator;
* `src/models.rs` — the `Address` record;
* `src/house.rs` — house-specific per-entity override rules.

Strings are modelled as `List Char` (the sources operate on uppercase ASCII
text, where Rust byte length and char count coincide).  Rust code that can
panic (out-of-range `Vec` indexing, `usize` underflow followed by an
out-of-range access) is modelled with `Option`/explicit `panicked` results:
`none` (or `.panicked`) marks a panic of the original program.
-/

namespace Adr

/-- Model of a Rust `String`: a list of characters (ASCII in this corpus). -/
abbrev Lne := List Char

/-- Turn a Lean string literal into the `List Char` model. -/
def str (s : String) : Lne := s.data

/-- `src/models.rs`: a mailing address. -/
structure Address where
  address1 : Lne
  address2 : Option Lne
  city : Lne
  state : Lne
  zip : Lne
deriving DecidableEq, Repr, Inhabited

/-- `src/prsr.rs` `LEN_ZIP5`. -/
abbrev LEN_ZIP5 : Nat := 5

/-- `src/prsr.rs` `LEN_ZIP10`. -/
abbrev LEN_ZIP10 : Nat := 10

/-- `src/prsr.rs` `ZIP_DASH`. -/
abbrev ZIP_DASH : Char := '-'

/-- Rust `str::starts_with` on the char-list model. -/
def starts_with : Lne → Lne → Bool
  | _, [] => true
  | [], _ :: _ => false
  | c :: cs, n :: ns => c = n && starts_with cs ns

/-- Rust `str::contains(needle)` (substring search) on the char-list model. -/
def lne_contains (hay needle : Lne) : Bool :=
  match hay with
  | [] => needle.isEmpty
  | _ :: cs => starts_with hay needle || lne_contains cs needle

/-- The char-indexed check performed by `is_zip`/`is_zip10` on a 10-char
line: `chars().enumerate().all(|(idx, c)| if idx == 5 { c == '-' } else { c.is_ascii_digit() })`,
unrolled as a recursion carrying the running index. -/
def zip10_chk : Nat → Lne → Bool
  | _, [] => true
  | i, c :: cs =>
    (if i = LEN_ZIP5 then c = ZIP_DASH else c.isDigit) && zip10_chk (i + 1) cs

/-- `src/prsr.rs` `is_zip`: 5 ASCII digits, or 5 digits, `-`, 4 digits. -/
def is_zip (lne : Lne) : Bool :=
  if lne.length = LEN_ZIP5 then lne.all Char.isDigit
  else if lne.length = LEN_ZIP10 then zip10_chk 0 lne
  else false

/-- `src/prsr.rs` `is_zip5`. -/
def is_zip5 (lne : Lne) : Bool :=
  lne.length = LEN_ZIP5 && lne.all Char.isDigit

/-- `src/prsr.rs` `is_zip10`. -/
def is_zip10 (lne : Lne) : Bool :=
  if lne.length ≠ LEN_ZIP10 then false else zip10_chk 0 lne

/-- `src/prsr.rs` `is_invalid_zip`: denylist of zips the USPS does not
recognize. -/
def is_invalid_zip (zip : Lne) : Bool :=
  zip = str "89801" || zip = str "49854" || zip = str "78702" ||
  zip = str "29142" || zip = str "85139" || zip = str "78071" ||
  zip = str "07410" || zip = str "85353" || zip = str "12451" ||
  zip = str "28562" || zip = str "00802" || zip = str "96952"

/-- `src/prsr.rs` `validate_addresses`, reduced to its success/failure bit
(the Rust function returns `Err(anyhow!(...))` at the first empty required
field and `Ok(())` otherwise; the error message payload is elided). -/
def validate_addresses : List Address → Bool
  | [] => true
  | adr :: rest =>
    if adr.address1 = [] then false
    else if adr.city = [] then false
    else if adr.state = [] then false
    else if adr.zip = [] then false
    else validate_addresses rest

/-! ## The standardization client (`src/usps.rs`) -/

/-- `src/usps.rs` `USPSAddress`: one candidate in the validator response. -/
structure USPSAddress where
  companyName : Option Lne
  addressLine1 : Lne
  addressLine2 : Option Lne
  city : Lne
  state : Lne
  zip5 : Lne
  zip4 : Lne
deriving DecidableEq, Repr, Inhabited

/-- `src/usps.rs` `USPSResponse`. -/
structure USPSResponse where
  resultStatus : Lne
  addressList : List USPSAddress
deriving DecidableEq, Repr, Inhabited

/-- The external validator, modelled as a deterministic function from the
form parameters actually posted to the response payload. -/
abbrev Svc := List (Lne × Lne) → USPSResponse

/-- The `prms` vector built by `standardize_address`: each field is posted
only when present/non-empty, in this fixed order. -/
def std_prms (adr : Address) : List (Lne × Lne) :=
  (if adr.address1 ≠ [] then [(str "address1", adr.address1)] else []) ++
  (match adr.address2 with
   | some address2 => [(str "address2", address2)]
   | none => []) ++
  (if adr.city ≠ [] then [(str "city", adr.city)] else []) ++
  (if adr.state ≠ [] then [(str "state", adr.state)] else []) ++
  (if adr.zip ≠ [] then [(str "zip", adr.zip)] else [])

/-- `src/usps.rs` `from`: overwrite the address with the chosen candidate;
the zip is `format!("{}-{}", zip5, zip4)`.  (`from` is a Lean keyword,
hence the suffix.) -/
def from_usps (_adr : Address) (usps : USPSAddress) : Address :=
  { address1 := usps.addressLine1
    address2 := usps.addressLine2
    city := usps.city
    state := usps.state
    zip := usps.zip5 ++ ZIP_DASH :: usps.zip4 }

/-- `src/usps.rs` `standardize_address`: posts the parameters, then on a
`SUCCESS` status takes the first candidate whose `addressLine1` does not
contain `"Range"`; every other outcome is an error (`none`). -/
def standardize_address (adr : Address) (cli : Svc) : Option Address :=
  let response_json := cli (std_prms adr)
  if response_json.resultStatus = str "SUCCESS" then
    if response_json.addressList ≠ [] then
      match response_json.addressList.find?
          (fun v => ! lne_contains v.addressLine1 (str "Range")) with
      | some new_adr => some (from_usps adr new_adr)
      | none => none
    else none
  else none

/-- The reverse-index loop of `src/usps.rs` `standardize_addresses`:
fuel `idx + 1` processes vector index `idx`.  On a failed first attempt the
address is removed when its zip is the denylisted `"89801"`, otherwise the
zip is cleared and the submission retried once; a second failure is the
error of the whole call (`none`, the `?` in the Rust code). -/
def standardize_addresses_loop (cli : Svc) : Nat → List Address → Option (List Address)
  | 0, adrs => some adrs
  | idx + 1, adrs =>
    let adr := adrs.getD idx default
    match standardize_address adr cli with
    | some new_adr => standardize_addresses_loop cli idx (adrs.set idx new_adr)
    | none =>
      if adr.zip = str "89801" then
        standardize_addresses_loop cli idx (adrs.eraseIdx idx)
      else
        match standardize_address { adr with zip := [] } cli with
        | some new_adr => standardize_addresses_loop cli idx (adrs.set idx new_adr)
        | none => none

/-- `src/usps.rs` `standardize_addresses`. -/
def standardize_addresses (adrs : List Address) (cli : Svc) : Option (List Address) :=
  standardize_addresses_loop cli adrs.length adrs

/-- Modelled from the spec (§4.4), for comparison with the code: candidate
selection that excludes `"Range"`-qualified lines and then prefers the
candidate without a secondary-address component, else the first. -/
def spec_select (resp : USPSResponse) : Option USPSAddress :=
  if resp.resultStatus = str "SUCCESS" then
    let cands := resp.addressList.filter
      (fun v => ! lne_contains v.addressLine1 (str "Range"))
    match cands.find? (fun v => v.addressLine2 = none) with
    | some c => some c
    | none => cands.head?
  else none

/-- Modelled from the spec (§4.4), for comparison with the code: the four
fallback strategy submissions in their fixed order — as-is, combine
(`address1` and `address2` concatenated into `address1`), swap (former
`address2` submitted as `address1`), and drop-zip. -/
def spec_strategy_requests (adr : Address) : List (List (Lne × Lne)) :=
  [std_prms adr,
   std_prms { adr with
              address1 := adr.address1 ++
                (match adr.address2 with
                 | some address2 => ' ' :: address2
                 | none => [])
              address2 := none },
   std_prms { adr with
              address1 := (adr.address2).getD adr.address1
              address2 := none },
   std_prms { adr with zip := [] }]

/-- Modelled from the spec (§4.4), for comparison with the code: try the
four strategies in order, stopping at the first that yields a candidate;
exhausting all four is the terminal failure. -/
def standardize_address_spec (adr : Address) (cli : Svc) : Option Address :=
  match (spec_strategy_requests adr).findSome? (fun req => spec_select (cli req)) with
  | some c => some (from_usps adr c)
  | none => none

/-! ## Characterizing `is_zip` -/

lemma LEN_ZIP5_def : LEN_ZIP5 = 5 := rfl

lemma LEN_ZIP10_def : LEN_ZIP10 = 10 := rfl

/-- Above index 5 the per-char check of `zip10_chk` is just the digit test. -/
lemma zip10_chk_high (z : Lne) (i : Nat) (h : 5 < i) :
    zip10_chk i z = z.all Char.isDigit := by
  induction z generalizing i with
  | nil => rfl
  | cons c cs ih =>
    have hne : i ≠ LEN_ZIP5 := by rw [LEN_ZIP5_def]; omega
    simp [zip10_chk, hne, ih (i + 1) (Nat.lt_succ_of_lt h)]

/-- The 10-char zip check splits the line at the mandatory dash. -/
lemma zip10_chk_decomp (z : Lne) (i : Nat) (hi : i ≤ 5)
    (hlen : z.length + i = 10) :
    zip10_chk i z = true ↔
      ∃ a b, z = a ++ ZIP_DASH :: b ∧ a.length + i = 5 ∧
        a.all Char.isDigit = true ∧ b.length = 4 ∧ b.all Char.isDigit = true := by
  induction z generalizing i with
  | nil =>
    exfalso
    simp only [List.length_nil, Nat.zero_add] at hlen
    omega
  | cons c cs ih =>
    rcases Nat.eq_or_lt_of_le hi with hi5 | hi5
    · -- at the dash position
      subst hi5
      have hcs : cs.length = 4 := by
        simp only [List.length_cons] at hlen
        omega
      have hchk : zip10_chk 5 (c :: cs) = ((c = ZIP_DASH) && cs.all Char.isDigit) := by
        rw [show zip10_chk 5 (c :: cs) =
            ((if (5 : Nat) = LEN_ZIP5 then decide (c = ZIP_DASH) else c.isDigit) &&
              zip10_chk (5 + 1) cs) from rfl]
        rw [if_pos (by rw [LEN_ZIP5_def]), zip10_chk_high cs 6 (by omega)]
      rw [hchk]
      constructor
      · intro h
        simp only [Bool.and_eq_true, decide_eq_true_eq] at h
        exact ⟨[], cs, by simp [h.1], by simp, by simp, hcs, h.2⟩
      · rintro ⟨a, b, hz, halen, -, hblen, hb⟩
        have ha0 : a = [] := by
          have : a.length = 0 := by omega
          exact List.length_eq_zero.mp this
        subst ha0
        simp only [List.nil_append, List.cons.injEq] at hz
        simp [hz.1, hz.2, hb]
    · -- strictly before the dash position
      have hne : i ≠ LEN_ZIP5 := by rw [LEN_ZIP5_def]; omega
      have hlen2 : cs.length + (i + 1) = 10 := by
        simp only [List.length_cons] at hlen
        omega
      have ihx := ih (i + 1) (by omega) hlen2
      have hchk : zip10_chk i (c :: cs) = (c.isDigit && zip10_chk (i + 1) cs) := by
        rw [show zip10_chk i (c :: cs) =
            ((if i = LEN_ZIP5 then decide (c = ZIP_DASH) else c.isDigit) &&
              zip10_chk (i + 1) cs) from rfl]
        rw [if_neg hne]
      rw [hchk]
      constructor
      · intro h
        simp only [Bool.and_eq_true] at h
        obtain ⟨a, b, hz, halen, ha, hblen, hb⟩ := ihx.mp h.2
        refine ⟨c :: a, b, by simp [hz], ?_, by simp [ha, h.1], hblen, hb⟩
        simp only [List.length_cons]
        omega
      · rintro ⟨a, b, hz, halen, ha, hblen, hb⟩
        rcases a with - | ⟨a0, as⟩
        · exfalso
          simp only [List.length_nil] at halen
          omega
        · simp only [List.cons_append, List.cons.injEq] at hz
          obtain ⟨hc, hcs2⟩ := hz
          subst hc
          simp only [List.all_cons, Bool.and_eq_true] at ha
          simp only [Bool.and_eq_true, ha.1, true_and]
          apply ihx.mpr
          refine ⟨as, b, hcs2, ?_, ha.2, hblen, hb⟩
          simp only [List.length_cons] at halen
          omega

/-- `is_zip` accepts exactly the 5-digit and 5+4-digit shapes. -/
lemma is_zip_iff (z : Lne) :
    is_zip z = true ↔
      (z.length = 5 ∧ z.all Char.isDigit = true) ∨
      (∃ a b, z = a ++ ZIP_DASH :: b ∧ a.length = 5 ∧ a.all Char.isDigit = true ∧
        b.length = 4 ∧ b.all Char.isDigit = true) := by
  by_cases h5 : z.length = 5
  · rw [show is_zip z = z.all Char.isDigit from by
      unfold is_zip
      rw [if_pos (by rw [LEN_ZIP5_def]; exact h5)]]
    constructor
    · intro h; exact Or.inl ⟨h5, h⟩
    · rintro (⟨-, hd⟩ | ⟨a, b, hz, hal, -, hbl, -⟩)
      · exact hd
      · exfalso
        subst hz
        simp only [List.length_append, List.length_cons] at h5
        omega
  · by_cases h10 : z.length = 10
    · rw [show is_zip z = zip10_chk 0 z from by
        unfold is_zip
        rw [if_neg (by rw [LEN_ZIP5_def]; exact h5),
          if_pos (by rw [LEN_ZIP10_def]; exact h10)]]
      rw [zip10_chk_decomp z 0 (by omega) (by omega)]
      constructor
      · rintro ⟨a, b, hz, hal, ha, hbl, hb⟩
        exact Or.inr ⟨a, b, hz, by omega, ha, hbl, hb⟩
      · rintro (⟨hl, -⟩ | ⟨a, b, hz, hal, ha, hbl, hb⟩)
        · exact absurd hl h5
        · exact ⟨a, b, hz, by omega, ha, hbl, hb⟩
    · rw [show is_zip z = false from by
        unfold is_zip
        rw [if_neg (by rw [LEN_ZIP5_def]; exact h5),
          if_neg (by rw [LEN_ZIP10_def]; exact h10)]]
      constructor
      · intro h; exact absurd h (by simp)
      · rintro (⟨hl, -⟩ | ⟨a, b, hz, hal, -, hbl, -⟩)
        · exact absurd hl h5
        · exfalso
          apply h10
          subst hz
          simp only [List.length_append, List.length_cons]
          omega

/-- Any list whose `getLast?` is a non-digit fails every all-digit check. -/
lemma not_all_digit_of_getLast (z : Lne) (c : Char) (hc : c.isDigit = false)
    (h : z.getLast? = some c) : z.all Char.isDigit = false := by
  induction z with
  | nil => simp at h
  | cons x xs ih =>
    rcases xs with - | ⟨y, ys⟩
    · simp only [List.getLast?_singleton, Option.some.injEq] at h
      subst h
      simp [hc]
    · rw [List.getLast?_cons_cons] at h
      simp [ih h]

/-- A line ending in the dash is never accepted by `is_zip`. -/
lemma is_zip_of_getLast_dash (z : Lne) (h : z.getLast? = some ZIP_DASH) :
    is_zip z = false := by
  rcases hiz : is_zip z with - | -
  · rfl
  · exfalso
    have hdash : ZIP_DASH.isDigit = false := by decide
    rcases (is_zip_iff z).mp hiz with ⟨-, hd⟩ | ⟨a, b, hz, -, -, hbl, hb⟩
    · rw [not_all_digit_of_getLast z ZIP_DASH hdash h] at hd
      exact Bool.false_ne_true hd
    · rcases b with - | ⟨b0, bs⟩
      · simp at hbl
      · subst hz
        rw [List.getLast?_append_cons, List.getLast?_cons_cons] at h
        rw [not_all_digit_of_getLast (b0 :: bs) ZIP_DASH hdash h] at hb
        exact Bool.false_ne_true hb

/-- `find?` returns the head of the first satisfying suffix. -/
lemma find?_first {α : Type} (p : α → Bool) (pre : List α) (c : α) (post : List α)
    (hpre : ∀ v ∈ pre, p v = false) (hc : p c = true) :
    (pre ++ c :: post).find? p = some c := by
  induction pre with
  | nil => simp [List.find?_cons, hc]
  | cons x xs ih =>
    have hx : p x = false := hpre x (List.mem_cons_self _ _)
    simp only [List.cons_append, List.find?_cons, hx]
    exact ih fun v hv => hpre v (List.mem_cons_of_mem _ hv)

/-! ## Concrete fixtures for the standardization claims -/

/-- A candidate carrying a secondary address line (`addressLine2` present). -/
def cand_with_secondary : USPSAddress :=
  { companyName := none
    addressLine1 := str "10 MAIN ST"
    addressLine2 := some (str "APT 5")
    city := str "SPRINGFIELD"
    state := str "IL"
    zip5 := str "62701"
    zip4 := str "1234" }

/-- The same street without a secondary address line. -/
def cand_primary : USPSAddress :=
  { companyName := none
    addressLine1 := str "10 MAIN ST"
    addressLine2 := none
    city := str "SPRINGFIELD"
    state := str "IL"
    zip5 := str "62701"
    zip4 := str "1234" }

/-- A successful response listing the secondary-bearing candidate first. -/
def resp_two_cands : USPSResponse :=
  { resultStatus := str "SUCCESS", addressList := [cand_with_secondary, cand_primary] }

/-- A validator that always answers `resp_two_cands`. -/
def svc_two_cands : Svc := fun _ => resp_two_cands

/-- The address submitted in the two-candidate scenario. -/
def adr_two_cands : Address :=
  { address1 := str "10 MAIN STREET"
    address2 := none
    city := str "SPRINGFIELD"
    state := str "IL"
    zip := str "62701" }

/-- An address whose extractor output put the real street in `address2`. -/
def adr_swapped : Address :=
  { address1 := str "A"
    address2 := some (str "B")
    city := str "C"
    state := str "S"
    zip := str "11111" }

/-- The request the spec's *combine* strategy would post for `adr_swapped`. -/
def combine_req : List (Lne × Lne) :=
  std_prms { adr_swapped with address1 := str "A B", address2 := none }

/-- The candidate returned for the combine-shaped request. -/
def cand_combine : USPSAddress :=
  { companyName := none
    addressLine1 := str "1 A B ST"
    addressLine2 := none
    city := str "C"
    state := str "S"
    zip5 := str "11111"
    zip4 := str "0001" }

/-- A validator succeeding exactly on the combine-shaped request. -/
def svc_combine_only : Svc := fun req =>
  if req = combine_req then
    { resultStatus := str "SUCCESS", addressList := [cand_combine] }
  else
    { resultStatus := str "FAILURE", addressList := [] }

/-! ## Claims C1, C6, C7, C8, C10 -/

/-- C1, counterexample: the Standardization Client does **not** implement the
four-strategy protocol of the claim.  For the validator `svc_combine_only`
(which accepts exactly the *combine*-shaped submission) the claimed protocol
succeeds on `adr_swapped` via its second strategy, while the code
(`standardize_addresses`, which only tries as-is and then as-is-without-zip)
reports a terminal failure. -/
theorem claim_C1_counterexample :
    standardize_address_spec adr_swapped svc_combine_only =
      some (from_usps adr_swapped cand_combine) ∧
    standardize_addresses [adr_swapped] svc_combine_only = none := by
  constructor
  · decide
  · decide

/-- C1 (amended): for every address submitted, the client tries the as-is
submission; on failure a denylisted address (zip `"89801"`) is removed,
otherwise the zip is cleared and the as-is submission retried once without
the zip; only when that second submission also fails is the failure
propagated to the caller.  (The spec's combine and swap strategies do not
exist in the code.) -/
theorem claim_C1_amended (adr : Address) (cli : Svc) :
    standardize_addresses [adr] cli =
      match standardize_address adr cli with
      | some new_adr => some [new_adr]
      | none =>
        if adr.zip = str "89801" then some []
        else
          match standardize_address { adr with zip := [] } cli with
          | some new_adr => some [new_adr]
          | none => none := by
  show standardize_addresses_loop cli 1 [adr] = _
  rw [standardize_addresses_loop]
  rcases h1 : standardize_address adr cli with - | new_adr
  · simp only [List.getD_cons_zero]
    rw [h1]
    by_cases hz : adr.zip = str "89801"
    · simp [hz, standardize_addresses_loop]
    · simp only [if_neg hz]
      rcases h2 : standardize_address { adr with zip := [] } cli with - | new_adr
      · simp [h2]
      · simp [h2, standardize_addresses_loop]
  · simp [h1, standardize_addresses_loop]

/-- C6, counterexample: with two non-`"Range"` candidates where only the
second lacks a secondary-address component, the code takes the **first**
candidate (the one with `addressLine2` present), not the preferred
secondary-free candidate required by the claim. -/
theorem claim_C6_counterexample :
    standardize_address adr_two_cands svc_two_cands =
      some (from_usps adr_two_cands cand_with_secondary) ∧
    spec_select resp_two_cands = some cand_primary ∧
    from_usps adr_two_cands cand_with_secondary ≠
      from_usps adr_two_cands cand_primary := by
  refine ⟨by decide, by decide, by decide⟩

/-- C6 (amended): on a `SUCCESS` status the code uses the **first** candidate
whose `addressLine1` does not contain `"Range"` (no preference among the
remaining candidates for one without a secondary-address component); a
non-success status, an empty candidate list, or a candidate set emptied by
the `"Range"` filter yields an error for that attempt. -/
theorem claim_C6_amended (adr : Address) (cli : Svc) :
    ((cli (std_prms adr)).resultStatus ≠ str "SUCCESS" →
      standardize_address adr cli = none) ∧
    ((cli (std_prms adr)).addressList.all
        (fun v => lne_contains v.addressLine1 (str "Range")) = true →
      standardize_address adr cli = none) ∧
    ((cli (std_prms adr)).resultStatus = str "SUCCESS" →
      ∀ pre c post, (cli (std_prms adr)).addressList = pre ++ c :: post →
      (∀ v ∈ pre, lne_contains v.addressLine1 (str "Range") = true) →
      lne_contains c.addressLine1 (str "Range") = false →
      standardize_address adr cli = some (from_usps adr c)) := by
  refine ⟨?_, ?_, ?_⟩
  · intro hst
    unfold standardize_address
    simp [hst]
  · intro hall
    unfold standardize_address
    by_cases hst : (cli (std_prms adr)).resultStatus = str "SUCCESS"
    · simp only [hst, if_pos rfl]
      by_cases hne : (cli (std_prms adr)).addressList = []
      · simp [hne]
      · have hfind : (cli (std_prms adr)).addressList.find?
            (fun v => ! lne_contains v.addressLine1 (str "Range")) = none := by
          rw [List.find?_eq_none]
          intro x hx
          have := List.all_eq_true.mp hall x hx
          simp [this]
        simp [hne, hfind]
    · simp [hst]
  · intro hst pre c post hlist hpre hc
    unfold standardize_address
    have hne : (cli (std_prms adr)).addressList ≠ [] := by
      rw [hlist]
      simp
    have hfind : (cli (std_prms adr)).addressList.find?
        (fun v => ! lne_contains v.addressLine1 (str "Range")) = some c := by
      rw [hlist]
      apply find?_first
      · intro v hv
        simp [hpre v hv]
      · simp [hc]
    simp [hst, hne, hfind]

/-- C7: `validate_addresses` errs exactly when some address has an empty
`address1`, `city`, `state`, or zip field; an absent `address2` never
causes an error, and with all required fields non-empty it returns `Ok`. -/
theorem claim_C7 (adrs : List Address) :
    validate_addresses adrs = false ↔
      ∃ adr ∈ adrs,
        adr.address1 = [] ∨ adr.city = [] ∨ adr.state = [] ∨ adr.zip = [] := by
  induction adrs with
  | nil => simp [validate_addresses]
  | cons a rest ih =>
    rw [show validate_addresses (a :: rest) =
        (if a.address1 = [] then false
         else if a.city = [] then false
         else if a.state = [] then false
         else if a.zip = [] then false
         else validate_addresses rest) from rfl]
    split_ifs with h1 h2 h3 h4
    · exact iff_of_true rfl ⟨a, List.mem_cons_self _ _, Or.inl h1⟩
    · exact iff_of_true rfl ⟨a, List.mem_cons_self _ _, Or.inr (Or.inl h2)⟩
    · exact iff_of_true rfl ⟨a, List.mem_cons_self _ _, Or.inr (Or.inr (Or.inl h3))⟩
    · exact iff_of_true rfl ⟨a, List.mem_cons_self _ _, Or.inr (Or.inr (Or.inr h4))⟩
    · rw [ih]
      constructor
      · rintro ⟨x, hx, hprop⟩
        exact ⟨x, List.mem_cons_of_mem _ hx, hprop⟩
      · rintro ⟨x, hx, hprop⟩
        rcases List.mem_cons.mp hx with rfl | hx2
        · rcases hprop with h | h | h | h
          · exact absurd h h1
          · exact absurd h h2
          · exact absurd h h3
          · exact absurd h h4
        · exact ⟨x, hx2, hprop⟩

/-- C8: `is_zip` accepts `"12345"` and `"12345-6789"`, rejects `"123456"`
and `"1234-5678"`, and in general accepts exactly the strings made of
5 ASCII digits, or 5 digits, a hyphen, and 4 digits. -/
theorem claim_C8 :
    is_zip (str "12345") = true ∧ is_zip (str "12345-6789") = true ∧
    is_zip (str "123456") = false ∧ is_zip (str "1234-5678") = false ∧
    ∀ z : Lne,
      is_zip z = true ↔
        (z.length = 5 ∧ z.all Char.isDigit = true) ∨
        (∃ a b, z = a ++ ZIP_DASH :: b ∧ a.length = 5 ∧ a.all Char.isDigit = true ∧
          b.length = 4 ∧ b.all Char.isDigit = true) :=
  ⟨by decide, by decide, by decide, by decide, is_zip_iff⟩

/-- C10: a successful `standardize_address` writes the zip as the chosen
candidate's `zip5`, a hyphen, then its `zip4`; the zip therefore always
contains a hyphen, and with an empty `zip4` it ends in the hyphen and is
rejected by `is_zip`. -/
theorem claim_C10 (adr : Address) (usps : USPSAddress) :
    (from_usps adr usps).zip = usps.zip5 ++ ZIP_DASH :: usps.zip4 ∧
    ZIP_DASH ∈ (from_usps adr usps).zip ∧
    (usps.zip4 = [] →
      (from_usps adr usps).zip.getLast? = some ZIP_DASH ∧
      is_zip (from_usps adr usps).zip = false) := by
  refine ⟨rfl, List.mem_append_right _ (List.mem_cons_self _ _), ?_⟩
  intro h4
  have hz : (from_usps adr usps).zip = usps.zip5 ++ [ZIP_DASH] := by
    simp [from_usps, h4]
  rw [hz]
  exact ⟨List.getLast?_concat _, is_zip_of_getLast_dash _ (List.getLast?_concat _)⟩

/-- C10, witness: the hypothesis `zip4 = []` discharged at a concrete
candidate with an empty `zip4`. -/
theorem claim_C10_witness :
    is_zip ((from_usps adr_two_cands
      { cand_primary with zip4 := [] }).zip) = false :=
  ((claim_C10 adr_two_cands { cand_primary with zip4 := [] }).2.2 rfl).2

/-- C6 (amended), witness: the first-non-`"Range"` selection applied to the
two-candidate fixture. -/
theorem claim_C6_amended_witness :
    standardize_address adr_two_cands svc_two_cands =
      some (from_usps adr_two_cands cand_with_secondary) :=
  (claim_C6_amended adr_two_cands svc_two_cands).2.2 (by decide)
    [] cand_with_secondary [cand_primary] (by decide)
    (by intro v hv; simp at hv) (by decide)

/-! ## The Line Editor (`src/prsr.rs` `Prsr::edit_lnes` and helpers) -/

/-- ASCII whitespace, modelling Rust `char::is_whitespace`/regex `\s` on
this ASCII corpus. -/
def is_spc (c : Char) : Bool := c = ' ' || c = '\t' || c = '\n' || c = '\r'

/-- Rust `char::is_ascii_punctuation`. -/
def is_ascii_punctuation (c : Char) : Bool :=
  (33 ≤ c.toNat && c.toNat ≤ 47) || (58 ≤ c.toNat && c.toNat ≤ 64) ||
  (91 ≤ c.toNat && c.toNat ≤ 96) || (123 ≤ c.toNat && c.toNat ≤ 126)

/-- Rust `str::trim` on the char-list model. -/
def trim (l : Lne) : Lne :=
  ((l.dropWhile is_spc).reverse.dropWhile is_spc).reverse

/-- `src/prsr.rs` `trim_end_spc_pnc`: drop trailing whitespace and ASCII
punctuation. -/
def trim_end_spc_pnc (l : Lne) : Lne :=
  (l.reverse.dropWhile (fun c => is_spc c || is_ascii_punctuation c)).reverse

/-- Split a char list on a separator, producing `n + 1` (possibly empty)
pieces for `n` separators (Rust `str::split`). -/
def split_char (c : Char) : Lne → List Lne
  | [] => [[]]
  | x :: xs =>
    let r := split_char c xs
    if x = c then [] :: r
    else
      match r with
      | p :: ps => (x :: p) :: ps
      | [] => [[x]]

/-- Rust `str::split_terminator`: like `split`, but a trailing separator
does not produce a final empty piece. -/
def split_terminator (c : Char) (l : Lne) : List Lne :=
  let ps := split_char c l
  match ps.getLast? with
  | some [] => ps.dropLast
  | _ => ps

/-- `src/prsr.rs` `edit_split_bar`: a line containing `|` is replaced by its
non-empty fragments, trimmed; fragments are inserted in original order. -/
def edit_split_bar (lnes : List Lne) : List Lne :=
  lnes.flatMap fun lne =>
    if lne.contains '|' then
      ((split_terminator '|' lne).filter (fun p => p ≠ [])).map trim
    else [lne]

/-! ### The state regex (`Prsr::re_state`)

The alternation of USPS state abbreviations and names, with `(?i)` case
folding, `\b` word boundaries, and `\s+` between the words of multi-word
names, in the exact order of the source pattern.  `find_iter` semantics:
leftmost matches, earlier alternatives first, continuing after each match;
the callers use `is_match` and the *last* match. -/

/-- One alternative: the words of a state name (joined by `\s+`). -/
abbrev StateAlt := List Lne

/-- The alternatives of `re_state`, in source order. -/
def state_alts : List StateAlt :=
  [[str "AL"], [str "Alabama"], [str "AK"], [str "Alaska"], [str "AS"],
   [str "American", str "Samoa"], [str "AZ"], [str "Arizona"], [str "AR"],
   [str "Arkansas"], [str "CA"], [str "California"], [str "CO"],
   [str "Colorado"], [str "CT"], [str "Connecticut"], [str "DE"],
   [str "Delaware"], [str "DC"], [str "District", str "of", str "Columbia"],
   [str "FM"], [str "Federated", str "States", str "of", str "Micronesia"],
   [str "FL"], [str "Florida"], [str "GA"], [str "Georgia"], [str "GU"],
   [str "Guam"], [str "HI"], [str "Hawaii"], [str "ID"], [str "Idaho"],
   [str "IL"], [str "Illinois"], [str "IN"], [str "Indiana"], [str "IA"],
   [str "Iowa"], [str "KS"], [str "Kansas"], [str "KY"], [str "Kentucky"],
   [str "LA"], [str "Louisiana"], [str "ME"], [str "Maine"], [str "MH"],
   [str "Marshall", str "Islands"], [str "MD"], [str "Maryland"], [str "MA"],
   [str "Massachusetts"], [str "MI"], [str "Michigan"], [str "MN"],
   [str "Minnesota"], [str "MS"], [str "Mississippi"], [str "MO"],
   [str "Missouri"], [str "MT"], [str "Montana"], [str "NE"],
   [str "Nebraska"], [str "NV"], [str "Nevada"], [str "NH"],
   [str "New", str "Hampshire"], [str "NJ"], [str "New", str "Jersey"],
   [str "NM"], [str "New", str "Mexico"], [str "NY"], [str "New", str "York"],
   [str "NC"], [str "North", str "Carolina"], [str "ND"],
   [str "North", str "Dakota"], [str "MP"],
   [str "Northern", str "Mariana", str "Islands"], [str "OH"], [str "Ohio"],
   [str "OK"], [str "Oklahoma"], [str "OR"], [str "Oregon"], [str "PW"],
   [str "Palau"], [str "PA"], [str "Pennsylvania"], [str "PR"],
   [str "Puerto", str "Rico"], [str "RI"], [str "Rhode", str "Island"],
   [str "SC"], [str "South", str "Carolina"], [str "SD"],
   [str "South", str "Dakota"], [str "TN"], [str "Tennessee"], [str "TX"],
   [str "Texas"], [str "UT"], [str "Utah"], [str "VT"], [str "Vermont"],
   [str "VI"], [str "Virgin", str "Islands"], [str "VA"], [str "Virginia"],
   [str "WA"], [str "Washington"], [str "WV"], [str "West", str "Virginia"],
   [str "WI"], [str "Wisconsin"], [str "WY"], [str "Wyoming"], [str "AA"],
   [str "Armed", str "Forces", str "Americas"], [str "AE"],
   [str "Armed", str "Forces", str "Europe"], [str "AP"],
   [str "Armed", str "Forces", str "Pacific"]]

/-- Regex word character (`\w`): letter, digit or underscore. -/
def is_word_char (c : Char) : Bool := c.isAlpha || c.isDigit || c = '_'

/-- Strip a case-insensitive literal from the front of the input, returning
the remaining suffix. -/
def strip_ci : Lne → Lne → Option Lne
  | [], rest => some rest
  | _ :: _, [] => none
  | c :: cs, r :: rs => if c.toUpper = r.toUpper then strip_ci cs rs else none

/-- Match the words of one alternative (joined by `\s+`) at the front of
the input; `\s+` is committed greedily, which is equivalent here because
every following word starts with a non-space character. -/
def match_words : StateAlt → Lne → Option Lne
  | [], rest => some rest
  | [w], rest => strip_ci w rest
  | w :: w2 :: ws, rest =>
    match strip_ci w rest with
    | none => none
    | some rest2 =>
      match rest2 with
      | [] => none
      | c :: _ =>
        if is_spc c then match_words (w2 :: ws) (rest2.dropWhile is_spc)
        else none

/-- Try the alternatives in order at the current position (the input is the
suffix starting there); returns the consumed length of the first
alternative that matches and satisfies the trailing `\b`. -/
def try_alts_at : List StateAlt → Lne → Option Nat
  | [], _ => none
  | ws :: rest, inp =>
    match match_words ws inp with
    | some suffix =>
      if (match suffix with
          | [] => true
          | c :: _ => ! is_word_char c) then
        some (inp.length - suffix.length)
      else try_alts_at rest inp
    | none => try_alts_at rest inp

/-- All `find_iter` matches of `re_state` as `(start, length)` pairs:
scan left to right, skipping positions whose preceding character is a word
character (the leading `\b`), and resume after each match. -/
def state_matches_aux : Lne → Nat → Bool → List (Nat × Nat)
  | [], _, _ => []
  | c :: cs, pos, prevWord =>
    if prevWord then state_matches_aux cs (pos + 1) (is_word_char c)
    else
      match try_alts_at state_alts (c :: cs) with
      | some len =>
        (pos, len) :: state_matches_aux (cs.drop (len - 1)) (pos + len) true
      | none => state_matches_aux cs (pos + 1) (is_word_char c)
termination_by l _ _ => l.length
decreasing_by
  · simp only [List.length_cons]
    omega
  · simp only [List.length_cons]
    have := List.length_drop (len - 1) cs
    omega
  · simp only [List.length_cons]
    omega

/-- `re_state.find_iter`. -/
def re_state_find_iter (text : Lne) : List (Nat × Nat) :=
  state_matches_aux text 0 false

/-- `re_state.is_match`. -/
def re_state_is_match (text : Lne) : Bool :=
  re_state_find_iter text ≠ []

/-- `re_state.find_iter(..).last()`. -/
def re_state_find_last (text : Lne) : Option (Nat × Nat) :=
  (re_state_find_iter text).getLast?

/-! ### Zip-shaped suffixes (`ends_with_zip*`) -/

/-- `src/prsr.rs` `ends_with_zip5`. -/
def ends_with_zip5 (lne : Lne) : Option Lne :=
  if 5 < lne.length then
    let zip := lne.drop (lne.length - 5)
    if is_zip5 zip then
      match lne.reverse.get? 5 with
      | some c => if !c.isDigit && c ≠ ZIP_DASH then some zip else none
      | none => none
    else none
  else none

/-- `src/prsr.rs` `ends_with_zip10`. -/
def ends_with_zip10 (lne : Lne) : Option Lne :=
  if 10 < lne.length then
    let zip := lne.drop (lne.length - 10)
    if is_zip10 zip then some zip else none
  else none

/-- `src/prsr.rs` `ends_with_zip`. -/
def ends_with_zip (lne : Lne) : Option Lne :=
  match ends_with_zip5 lne with
  | some zip => some zip
  | none => ends_with_zip10 lne

/-! ### The remaining Line Editor passes -/

/-- The loop of `Prsr::edit_concat_zip` (`for idx in (1..lnes.len()).rev()`):
fuel `k` processes index `k`, counting down to 1.  A line that is exactly a
zip is appended (space-joined) to its predecessor unless the predecessor
matches the state regex. -/
def edit_concat_zip_loop : List Lne → Nat → List Lne
  | lnes, 0 => lnes
  | lnes, idx + 1 =>
    let lne := lnes.getD (idx + 1) []
    let lnes2 :=
      if is_zip lne && ! re_state_is_match (lnes.getD idx []) then
        (lnes.set idx (lnes.getD idx [] ++ ' ' :: lne)).eraseIdx (idx + 1)
      else lnes
    edit_concat_zip_loop lnes2 idx

/-- `src/prsr.rs` `Prsr::edit_concat_zip`. -/
def edit_concat_zip (lnes : List Lne) : List Lne :=
  match lnes.length with
  | 0 => lnes
  | n + 1 => edit_concat_zip_loop lnes n

/-- The loop of `edit_zip_disjoint`: the first (scanning from the top) short
all-digit line is removed and appended to its predecessor, then the loop
breaks. -/
def edit_zip_disjoint_loop : List Lne → Nat → List Lne
  | lnes, 0 => lnes
  | lnes, idx + 1 =>
    let lne := lnes.getD (idx + 1) []
    if lne.length < 5 && lne.all Char.isDigit then
      (lnes.eraseIdx (idx + 1)).set idx (lnes.getD idx [] ++ lne)
    else edit_zip_disjoint_loop lnes idx

/-- `src/prsr.rs` `edit_zip_disjoint`. -/
def edit_zip_disjoint (lnes : List Lne) : List Lne :=
  match lnes.length with
  | 0 => lnes
  | n + 1 => edit_zip_disjoint_loop lnes n

/-- The per-line expansion of `Prsr::edit_split_city_state_zip`: a line with
a zip-shaped suffix is split into (comma parts or remainder), the last state
match if any, and the zip.  Processing is per line: the pieces are inserted
in place of the line and the loop continues above/below them. -/
def expand_city_state_zip (lne : Lne) : List Lne :=
  match ends_with_zip lne with
  | none => [lne]
  | some zip =>
    let rest := lne.take (lne.length - zip.length)
    match re_state_find_last rest with
    | some (start, len) =>
      let matched := (rest.drop start).take len
      let rest2 := trim_end_spc_pnc (rest.take start)
      (if rest2.contains ',' then (split_terminator ',' rest2).map trim
       else [rest2]) ++ [matched, zip]
    | none =>
      (if rest.contains ',' then (split_terminator ',' rest).map trim
       else [rest]) ++ [zip]

/-- `src/prsr.rs` `Prsr::edit_split_city_state_zip`. -/
def edit_split_city_state_zip (lnes : List Lne) : List Lne :=
  lnes.flatMap expand_city_state_zip

/-- Index of the last line recognized by `is_zip`, if any. -/
def last_zip_idx : List Lne → Option Nat
  | [] => none
  | x :: xs =>
    match last_zip_idx xs with
    | some i => some (i + 1)
    | none => if is_zip x then some 0 else none

/-- `src/prsr.rs` `edit_drain_after_last_zip`: discard everything after the
last zip line (no change when no line is a zip). -/
def edit_drain_after_last_zip (lnes : List Lne) : List Lne :=
  match last_zip_idx lnes with
  | some i => lnes.take (i + 1)
  | none => lnes

/-- `src/prsr.rs` `edit_single_comma`: remove lines that are exactly `","`. -/
def edit_single_comma (lnes : List Lne) : List Lne :=
  lnes.filter (fun l => l ≠ str ",")

/-- `src/prsr.rs` `Prsr::edit_lnes`: the Line Editor pipeline in source
order. -/
def edit_lnes (lnes : List Lne) : List Lne :=
  edit_single_comma
    (edit_drain_after_last_zip
      (edit_split_city_state_zip
        (edit_zip_disjoint
          (edit_concat_zip
            (edit_split_bar lnes)))))

/-! ## Idempotence facts about the Line Editor passes (claim C5) -/

/-- The pieces produced by `split_char` never contain the separator. -/
lemma split_char_pieces (c : Char) (l : Lne) : ∀ p ∈ split_char c l, c ∉ p := by
  induction l with
  | nil =>
    intro p hp
    simp only [split_char, List.mem_singleton] at hp
    subst hp
    simp
  | cons x xs ih =>
    intro p hp
    simp only [split_char] at hp
    by_cases hx : x = c
    · rw [if_pos hx] at hp
      rcases List.mem_cons.mp hp with rfl | hp2
      · simp
      · exact ih p hp2
    · rw [if_neg hx] at hp
      rcases hr : split_char c xs with - | ⟨q, qs⟩
      · rw [hr] at hp
        simp only [List.mem_singleton] at hp
        subst hp
        simp only [List.mem_singleton]
        exact fun h => hx h.symm
      · rw [hr] at hp
        rcases List.mem_cons.mp hp with rfl | hp2
        · have hq : c ∉ q := ih q (by rw [hr]; exact List.mem_cons_self _ _)
          simp only [List.mem_cons]
          rintro (h | h)
          · exact hx h.symm
          · exact hq h
        · exact ih p (by rw [hr]; exact List.mem_cons_of_mem _ hp2)

/-- The pieces produced by `split_terminator` never contain the separator. -/
lemma split_terminator_pieces (c : Char) (l : Lne) :
    ∀ p ∈ split_terminator c l, c ∉ p := by
  intro p hp
  unfold split_terminator at hp
  dsimp only at hp
  split at hp
  · exact split_char_pieces c l p ((List.dropLast_sublist _).mem hp)
  · exact split_char_pieces c l p hp

/-- `trim` only removes characters. -/
lemma trim_subset (p : Lne) : ∀ x ∈ trim p, x ∈ p := by
  intro x hx
  unfold trim at hx
  have h1 := List.mem_reverse.mp hx
  have h2 := (List.dropWhile_sublist is_spc).mem h1
  have h3 := List.mem_reverse.mp h2
  exact (List.dropWhile_sublist is_spc).mem h3

/-- A `flatMap` whose outputs are fixed points of the mapping function is
itself a fixed point. -/
lemma flatMap_fixed_inner {α : Type} (f : α → List α) (m : List α)
    (h : ∀ y ∈ m, f y = [y]) : m.flatMap f = m := by
  induction m with
  | nil => rfl
  | cons y ys ih =>
    rw [List.flatMap_cons, h y (List.mem_cons_self _ _),
      ih fun z hz => h z (List.mem_cons_of_mem _ hz)]
    rfl

/-- Idempotence of `flatMap` when every produced element is inert. -/
lemma flatMap_fixed {α : Type} (f : α → List α)
    (h : ∀ x, ∀ y ∈ f x, f y = [y]) (l : List α) :
    (l.flatMap f).flatMap f = l.flatMap f := by
  induction l with
  | nil => rfl
  | cons x xs ih =>
    rw [List.flatMap_cons, List.flatMap_append, ih,
      flatMap_fixed_inner f (f x) (h x)]

/-- Fragments emitted by the bar-splitting pass contain no `|`. -/
lemma edit_split_bar_frag (lne : Lne) :
    ∀ g ∈ (if lne.contains '|' then
        ((split_terminator '|' lne).filter (fun p => p ≠ [])).map trim
      else [lne]),
      g.contains '|' = false := by
  intro g hg
  by_cases hc : lne.contains '|'
  · rw [if_pos hc] at hg
    obtain ⟨p, hp, rfl⟩ := List.mem_map.mp hg
    have hpin := (List.mem_filter.mp hp).1
    have hnp : '|' ∉ p := split_terminator_pieces '|' lne p hpin
    have : '|' ∉ trim p := fun h => hnp (trim_subset p _ h)
    rcases h : (trim p).contains '|' with - | -
    · rfl
    · exact absurd (List.elem_iff.mp h) this
  · rw [if_neg hc] at hg
    simp only [List.mem_singleton] at hg
    subst hg
    exact Bool.of_not_eq_true hc

/-- `edit_split_bar` is idempotent. -/
lemma edit_split_bar_idem (lnes : List Lne) :
    edit_split_bar (edit_split_bar lnes) = edit_split_bar lnes := by
  unfold edit_split_bar
  apply flatMap_fixed
  intro x y hy
  have hfrag := edit_split_bar_frag x y hy
  rw [if_neg fun hcon => Bool.false_ne_true (hfrag ▸ hcon)]

/-- Truncating at the last zip keeps that zip the last one. -/
lemma last_zip_idx_take (l : List Lne) (i : Nat) (h : last_zip_idx l = some i) :
    last_zip_idx (l.take (i + 1)) = some i := by
  induction l generalizing i with
  | nil => simp [last_zip_idx] at h
  | cons x xs ih =>
    rw [last_zip_idx] at h
    rcases hxs : last_zip_idx xs with - | j
    · rw [hxs] at h
      rcases hz : is_zip x with - | -
      · rw [hz] at h
        simp at h
      · rw [hz] at h
        simp only [if_true, Option.some.injEq] at h
        subst h
        simp [last_zip_idx, List.take_succ_cons, List.take_zero, hz]
    · rw [hxs] at h
      simp only [Option.some.injEq] at h
      subst h
      rw [List.take_succ_cons, last_zip_idx, ih j hxs]

/-- `edit_drain_after_last_zip` is idempotent. -/
lemma edit_drain_idem (lnes : List Lne) :
    edit_drain_after_last_zip (edit_drain_after_last_zip lnes) =
      edit_drain_after_last_zip lnes := by
  unfold edit_drain_after_last_zip
  rcases h : last_zip_idx lnes with - | i
  · simp only [h]
  · simp only [h, last_zip_idx_take lnes i h, List.take_take, Nat.min_self]

/-- `edit_single_comma` is idempotent. -/
lemma edit_single_comma_idem (lnes : List Lne) :
    edit_single_comma (edit_single_comma lnes) = edit_single_comma lnes := by
  unfold edit_single_comma
  rw [List.filter_filter]
  congr 1
  funext a
  rcases h : decide (a ≠ str ",") with - | - <;> simp [h]

/-- C5, counterexample: the Line Editor is not a fixed point on its own
output.  On `["A", "1", "2"]` the first run lets the disjoint-zip repair
merge `"2"` into `"1"`, producing `["A", "12"]`; the second run merges again
to `["A12"]`. -/
theorem claim_C5_counterexample :
    edit_lnes (edit_lnes [str "A", str "1", str "2"]) ≠
      edit_lnes [str "A", str "1", str "2"] := by decide

/-- C5 (amended): re-running the Line Editor on its own output can produce
further changes (the pipeline is not a fixed point: disjoint-zip repair can
merge one more short digit line per pass); the split-on-delimiter,
trailing-trim and single-comma-removal stages are individually idempotent. -/
theorem claim_C5_amended :
    (∀ lnes, edit_split_bar (edit_split_bar lnes) = edit_split_bar lnes) ∧
    (∀ lnes, edit_drain_after_last_zip (edit_drain_after_last_zip lnes) =
      edit_drain_after_last_zip lnes) ∧
    (∀ lnes, edit_single_comma (edit_single_comma lnes) = edit_single_comma lnes) ∧
    (∃ lnes, edit_lnes (edit_lnes lnes) ≠ edit_lnes lnes) :=
  ⟨edit_split_bar_idem, edit_drain_idem, edit_single_comma_idem,
    ⟨[str "A", str "1", str "2"], by decide⟩⟩

/-! ## A regular-expression engine (Brzozowski derivatives)

Used to embed the anchored patterns `Prsr::re_address1` and
`Prsr::re_po_box`.  Both Rust patterns are `^...$`-anchored, so their
`is_match` is exact-match, which the derivative matcher decides. -/

/-- Regular expressions over character classes. -/
inductive RE where
  | eps : RE
  | nev : RE
  | cls : (Char → Bool) → RE
  | cat : RE → RE → RE
  | alt : RE → RE → RE
  | star : RE → RE

/-- Does the regex accept the empty string? -/
def RE.nullable : RE → Bool
  | .eps => true
  | .nev => false
  | .cls _ => false
  | .cat a b => a.nullable && b.nullable
  | .alt a b => a.nullable || b.nullable
  | .star _ => true

/-- Brzozowski derivative by one character. -/
def RE.deriv : RE → Char → RE
  | .eps, _ => .nev
  | .nev, _ => .nev
  | .cls p, c => if p c then .eps else .nev
  | .cat a b, c =>
    if a.nullable then .alt (.cat (a.deriv c) b) (b.deriv c)
    else .cat (a.deriv c) b
  | .alt a b, c => .alt (a.deriv c) (b.deriv c)
  | .star a, c => .cat (a.deriv c) (.star a)

/-- Exact match of an anchored regex. -/
def re_match (r : RE) (l : Lne) : Bool :=
  (l.foldl RE.deriv r).nullable

/-- `r?`. -/
def RE.opt (r : RE) : RE := .alt r .eps

/-- `r+`. -/
def RE.plus (r : RE) : RE := .cat r (.star r)

/-- A case-insensitive literal character. -/
def cls_ci (ch : Char) : RE := .cls (fun c => c.toUpper = ch.toUpper)

/-- A case-insensitive literal word. -/
def lit_ci (s : String) : RE :=
  s.data.foldr (fun ch r => .cat (cls_ci ch) r) .eps

/-- `\d`. -/
def cls_digit : RE := .cls Char.isDigit

/-- `[A-Za-z]`. -/
def cls_alpha : RE := .cls Char.isAlpha

/-- `\s`. -/
def cls_spc : RE := .cls is_spc

/-- `.` (the corpus has no newlines inside a line). -/
def cls_any : RE := .cls (fun _ => true)

/-- The leading group of `re_address1`:
`\d+ [A-Za-z]? [-\s]? \d* [A-Za-z]* /? \d*` or a spelled number word. -/
def re_address1_group : RE :=
  .alt
    (.cat (RE.plus cls_digit)
      (.cat (RE.opt cls_alpha)
        (.cat (RE.opt (.cls (fun c => c = '-' || is_spc c)))
          (.cat (.star cls_digit)
            (.cat (.star cls_alpha)
              (.cat (RE.opt (.cls (fun c => c = '/')))
                (.star cls_digit)))))))
    ([lit_ci "one", lit_ci "two", lit_ci "three", lit_ci "four", lit_ci "five",
      lit_ci "six", lit_ci "seven", lit_ci "eight", lit_ci "nine", lit_ci "ten",
      lit_ci "eleven", lit_ci "twelve", lit_ci "thirteen", lit_ci "fourteen",
      lit_ci "fifteen", lit_ci "sixteen", lit_ci "seventeen", lit_ci "eighteen",
      lit_ci "nineteen", lit_ci "twenty"].foldr RE.alt .nev)

/-- `Prsr::re_address1`: the group, then `\s+ .* [A-Za-z] .*`, anchored. -/
def re_address1_re : RE :=
  .cat re_address1_group
    (.cat (RE.plus cls_spc)
      (.cat (.star cls_any) (.cat cls_alpha (.star cls_any))))

/-- `re_address1.is_match` (the pattern is `^...$`-anchored). -/
def re_address1_is_match (l : Lne) : Bool := re_match re_address1_re l

/-- `Prsr::re_po_box`: `^P\s*\.?\s*O\s*\.?\s*BOX\s*\d+$`, case-insensitive. -/
def re_po_box_re : RE :=
  .cat (cls_ci 'P')
    (.cat (.star cls_spc)
      (.cat (RE.opt (.cls (fun c => c = '.')))
        (.cat (.star cls_spc)
          (.cat (cls_ci 'O')
            (.cat (.star cls_spc)
              (.cat (RE.opt (.cls (fun c => c = '.')))
                (.cat (.star cls_spc)
                  (.cat (lit_ci "BOX")
                    (.cat (.star cls_spc) (RE.plus cls_digit))))))))))

/-- `re_po_box.is_match` (the pattern is `^...$`-anchored). -/
def re_po_box_is_match (l : Lne) : Bool := re_match re_po_box_re l

/-! ## The Address Extractor (`src/prsr.rs` `Prsr::parse_addresses`) -/

/-- The backward scan for address1 (`while idx_adr1 != usize::MAX && ...`):
from start index `j` downward, the first line matching the address1 or
PO-Box shape; `none` models walking past index 0 (`usize::MAX`). -/
def scan_adr1 (lnes : List Lne) : Nat → Option Nat
  | 0 =>
    if re_address1_is_match (lnes.getD 0 []) || re_po_box_is_match (lnes.getD 0 []) then
      some 0
    else none
  | j + 1 =>
    if re_address1_is_match (lnes.getD (j + 1) []) ||
        re_po_box_is_match (lnes.getD (j + 1) []) then
      some (j + 1)
    else scan_adr1 lnes j

/-- The `while idx_adr2 != idx_city` concatenation loop building `address2`.
Walking past the end of the vector (which the Rust code does when
`idx_city` is below the start index) is an out-of-range panic (`none`).
The loop either stops at `idx_city` or walks off the end of the vector, so
it makes at most `lnes.length + 1` entries; it is given exactly that much
fuel (structural recursion for kernel reducibility), and fuel exhaustion is
unreachable. -/
def address2_cat (lnes : List Lne) (idx_city : Nat) :
    Nat → Nat → Lne → Option Lne
  | 0, _, _ => none
  | fuel + 1, j, acc =>
    if j = idx_city then some acc
    else
      match lnes.get? j with
      | none => none
      | some l => address2_cat lnes idx_city fuel (j + 1) (acc ++ ' ' :: l)

/-- Result of processing one zip anchor. -/
inductive AnchorRes where
  | panicked
  | notFound
  | ok (adr : Address)
deriving DecidableEq, Repr

/-- The `idx_adr1` adjustment after the scan (`// Check if address2 looks
like address1.`): prefer the line just above when it also matches the
address1 shape and the found line is not a PO Box. -/
def anchor_adr1_idx (lnes : List Lne) (j0 : Nat) : Nat :=
  if ((j0 != 0) && (! re_po_box_is_match (lnes.getD j0 [])) &&
      re_address1_is_match (lnes.getD (j0 - 1) [])) = true then j0 - 1
  else j0

/-- The `address2` assembly (`// Address2, if any.`): `none` in the outer
option is the out-of-range panic of the concatenation loop. -/
def anchor_address2 (lnes : List Lne) (idx_adr1 idx_city : Nat) :
    Option (Option Lne) :=
  if idx_adr1 + 1 = idx_city then some none
  else
    match lnes.get? (idx_adr1 + 1) with
    | none => none
    | some l0 =>
      (address2_cat lnes idx_city (lnes.length + 1) (idx_adr1 + 2) l0).map some

/-- Processing of one zip anchor at index `idx` (the body of the `if
is_zip ...` block): `lnes[idx - 1]` is the state, `lnes[idx - 2]` the city;
`idx < 2` underflows these accesses and panics.  The scan starts at
`idx.saturating_sub(3)` (`Nat` subtraction); a failed scan is the
early-`return None` of the Rust code; the `address2` loop may panic. -/
def parse_anchor (lnes : List Lne) (idx : Nat) : AnchorRes :=
  if idx < 2 then .panicked
  else
    match scan_adr1 lnes (idx - 3) with
    | none => .notFound
    | some j0 =>
      match anchor_address2 lnes (anchor_adr1_idx lnes j0) (idx - 2) with
      | none => .panicked
      | some a2 =>
        .ok { address1 := lnes.getD (anchor_adr1_idx lnes j0) []
              address2 := a2
              city := lnes.getD (idx - 2) []
              state := lnes.getD (idx - 1) []
              zip := lnes.getD idx [] }

/-- Rust `Ord` on `String` restricted to ASCII: lexicographic by code. -/
def cmp_lne : Lne → Lne → Ordering
  | [], [] => .eq
  | [], _ :: _ => .lt
  | _ :: _, [] => .gt
  | a :: as2, b :: bs =>
    if a.toNat < b.toNat then .lt
    else if b.toNat < a.toNat then .gt
    else cmp_lne as2 bs

/-- Rust `Ord` on `Option<String>`: `None < Some`. -/
def cmp_opt_lne : Option Lne → Option Lne → Ordering
  | none, none => .eq
  | none, some _ => .lt
  | some _, none => .gt
  | some a, some b => cmp_lne a b

/-- The derived `Ord` on `Address`: fields in declaration order. -/
def cmp_address (a b : Address) : Ordering :=
  match cmp_lne a.address1 b.address1 with
  | .eq =>
    match cmp_opt_lne a.address2 b.address2 with
    | .eq =>
      match cmp_lne a.city b.city with
      | .eq =>
        match cmp_lne a.state b.state with
        | .eq => cmp_lne a.zip b.zip
        | o => o
      | o => o
    | o => o
  | o => o

/-- `a <= b` under the derived `Ord`. -/
def adr_le (a b : Address) : Bool :=
  match cmp_address a b with
  | .gt => false
  | _ => true

/-- Sorted insertion under `adr_le`. -/
def insert_sorted (a : Address) : List Address → List Address
  | [] => [a]
  | b :: rest => if adr_le a b then a :: b :: rest else b :: insert_sorted a rest

/-- `adrs.sort_unstable()`: any sort agreeing with the total order (equal
addresses are structurally identical, so the sorted list is unique). -/
def sort_addresses (l : List Address) : List Address :=
  l.foldr insert_sorted []

/-- `adrs.dedup_by(|a, b| a == b)`: drop consecutive duplicates (equal
elements are structurally identical, so keeping the earlier or later copy of
a run is the same list). -/
def dedup_addresses : List Address → List Address
  | [] => []
  | a :: rest =>
    match rest with
    | [] => [a]
    | b :: _ => if a = b then dedup_addresses rest else a :: dedup_addresses rest

/-- Result of `parse_addresses`: `panicked` models a Rust panic, `noAddress`
the `return None`/empty outcome, `found` the `Some(adrs)` outcome. -/
inductive ParseResult where
  | panicked
  | noAddress
  | found (adrs : List Address)
deriving DecidableEq, Repr

/-- The reverse anchor scan of `parse_addresses`
(`for (idx, lne) in lnes.iter().enumerate().rev()`): fuel `n + 1` processes
index `n`; at fuel 0 the collected addresses are sorted and deduplicated
(`return None` when none were found). -/
def parse_loop (lnes : List Lne) : Nat → List Address → ParseResult
  | 0, adrs =>
    if adrs = [] then .noAddress
    else .found (dedup_addresses (sort_addresses adrs))
  | n + 1, adrs =>
    let lne := lnes.getD n []
    if is_zip lne && ! is_invalid_zip lne then
      match parse_anchor lnes n with
      | .panicked => .panicked
      | .notFound => .noAddress
      | .ok adr => parse_loop lnes n (adrs ++ [adr])
    else parse_loop lnes n adrs

/-- `src/prsr.rs` `Prsr::parse_addresses` (the `per` argument is only used
for logging and is omitted). -/
def parse_addresses (lnes : List Lne) : ParseResult :=
  parse_loop lnes lnes.length []

/-- The anchor condition of the reverse scan at index `i`:
`is_zip(lne) && !is_invalid_zip(lne)`. -/
def is_anchor (lnes : List Lne) (i : Nat) : Bool :=
  is_zip (lnes.getD i []) && ! is_invalid_zip (lnes.getD i [])

/-- The address1 search condition: the address-line-1 shape or the PO-Box
shape. -/
def is_adr1_shaped (l : Lne) : Bool :=
  re_address1_is_match l || re_po_box_is_match l

/-! ## Behaviour of the anchor loop -/

/-- Unfolding equation for `parse_loop` at positive fuel. -/
lemma parse_loop_succ (lnes : List Lne) (n : Nat) (acc : List Address) :
    parse_loop lnes (n + 1) acc =
      (if (is_zip (lnes.getD n []) && ! is_invalid_zip (lnes.getD n [])) = true then
        match parse_anchor lnes n with
        | .panicked => .panicked
        | .notFound => .noAddress
        | .ok adr => parse_loop lnes n (acc ++ [adr])
      else parse_loop lnes n acc) := rfl

/-- Indices carrying no anchor are skipped by the loop. -/
lemma parse_loop_skip (lnes : List Lne) (m n : Nat) (hmn : m ≤ n)
    (h : ∀ k, m ≤ k → k < n → is_anchor lnes k = false) :
    ∀ acc, parse_loop lnes n acc = parse_loop lnes m acc := by
  induction n with
  | zero =>
    intro acc
    rw [Nat.le_zero.mp hmn]
  | succ n ih =>
    intro acc
    rcases Nat.eq_or_lt_of_le hmn with heq | hlt
    · rw [heq]
    · have hm : m ≤ n := Nat.lt_succ_iff.mp hlt
      have hk : is_anchor lnes n = false := h n hm (Nat.lt_succ_self n)
      rw [parse_loop_succ, if_neg (by rw [show (is_zip (lnes.getD n []) &&
        ! is_invalid_zip (lnes.getD n [])) = false from hk]; exact Bool.false_ne_true)]
      exact ih hm (fun k hk1 hk2 => h k hk1 (Nat.lt_succ_of_lt hk2)) acc

/-- An anchor in the first two positions panics when processed. -/
lemma parse_anchor_lt2 (lnes : List Lne) (i : Nat) (h : i < 2) :
    parse_anchor lnes i = .panicked := by
  unfold parse_anchor
  rw [if_pos h]

/-- The backward scan fails when no line up to the start index has the
address1 or PO-Box shape. -/
lemma scan_adr1_none (lnes : List Lne) (s : Nat)
    (h : ∀ j, j ≤ s → is_adr1_shaped (lnes.getD j []) = false) :
    scan_adr1 lnes s = none := by
  induction s with
  | zero =>
    have h0 := h 0 (Nat.le_refl 0)
    unfold scan_adr1
    rw [if_neg (by rw [show (re_address1_is_match (lnes.getD 0 []) ||
      re_po_box_is_match (lnes.getD 0 [])) = false from h0]; exact Bool.false_ne_true)]
  | succ s ih =>
    have hs := h (s + 1) (Nat.le_refl _)
    unfold scan_adr1
    rw [if_neg (by rw [show (re_address1_is_match (lnes.getD (s + 1) []) ||
      re_po_box_is_match (lnes.getD (s + 1) [])) = false from hs]; exact Bool.false_ne_true)]
    exact ih fun j hj => h j (Nat.le_succ_of_le hj)

/-- The scan result never exceeds its start index. -/
lemma scan_adr1_le (lnes : List Lne) (s j : Nat) (h : scan_adr1 lnes s = some j) :
    j ≤ s := by
  induction s with
  | zero =>
    unfold scan_adr1 at h
    by_cases hc : (re_address1_is_match (lnes.getD 0 []) ||
        re_po_box_is_match (lnes.getD 0 [])) = true
    · rw [if_pos hc] at h
      injection h with h
      omega
    · rw [if_neg hc] at h
      exact Option.noConfusion h
  | succ s ih =>
    unfold scan_adr1 at h
    by_cases hc : (re_address1_is_match (lnes.getD (s + 1) []) ||
        re_po_box_is_match (lnes.getD (s + 1) [])) = true
    · rw [if_pos hc] at h
      injection h with h
      omega
    · rw [if_neg hc] at h
      exact Nat.le_succ_of_le (ih h)

/-- With enough fuel, the `address2` loop terminates normally whenever its
start index is at most the city index and the city index is in range. -/
lemma address2_cat_some (lnes : List Lne) (city : Nat) :
    ∀ (fuel j : Nat) (acc : Lne), j ≤ city → city ≤ lnes.length →
      city - j < fuel → ∃ v, address2_cat lnes city fuel j acc = some v := by
  intro fuel
  induction fuel with
  | zero =>
    intro j acc hja hcl h
    omega
  | succ fuel ih =>
    intro j acc hj hcity hfuel
    rcases Nat.eq_or_lt_of_le hj with heq | hlt
    · exact ⟨acc, by unfold address2_cat; rw [if_pos heq]⟩
    · have hjlen : j < lnes.length := Nat.lt_of_lt_of_le hlt hcity
      have hget := List.get?_eq_get hjlen
      obtain ⟨v, hv⟩ := ih (j + 1) (acc ++ ' ' :: lnes.get ⟨j, hjlen⟩)
        hlt hcity (by omega)
      refine ⟨v, ?_⟩
      unfold address2_cat
      rw [if_neg (by omega), hget]
      exact hv

/-- The adjusted address1 index never exceeds the scan result. -/
lemma anchor_adr1_idx_le (lnes : List Lne) (j0 : Nat) :
    anchor_adr1_idx lnes j0 ≤ j0 := by
  unfold anchor_adr1_idx
  split
  · omega
  · exact Nat.le_refl _

/-- The `address2` assembly succeeds whenever the city index is in range
above the address1 index. -/
lemma anchor_address2_some (lnes : List Lne) (idx_adr1 idx_city : Nat)
    (hle : idx_adr1 + 1 ≤ idx_city) (hcl : idx_city < lnes.length) :
    ∃ a2, anchor_address2 lnes idx_adr1 idx_city = some a2 := by
  unfold anchor_address2
  by_cases hcity : idx_adr1 + 1 = idx_city
  · exact ⟨none, by rw [if_pos hcity]⟩
  · have hlt : idx_adr1 + 1 < lnes.length := by omega
    obtain ⟨v, hv⟩ := address2_cat_some lnes idx_city (lnes.length + 1)
      (idx_adr1 + 2) (lnes.get ⟨idx_adr1 + 1, hlt⟩) (by omega) (by omega) (by omega)
    refine ⟨some v, ?_⟩
    rw [if_neg hcity, List.get?_eq_get hlt]
    show Option.map some (address2_cat lnes idx_city (lnes.length + 1)
      (idx_adr1 + 2) (lnes.get ⟨idx_adr1 + 1, hlt⟩)) = some (some v)
    rw [hv]
    rfl

/-- An anchor preceded by at least three lines never panics. -/
lemma parse_anchor_no_panic (lnes : List Lne) (idx : Nat) (h3 : 3 ≤ idx)
    (hlen : idx < lnes.length) : parse_anchor lnes idx ≠ .panicked := by
  unfold parse_anchor
  rw [if_neg (by omega)]
  rcases hscan : scan_adr1 lnes (idx - 3) with - | j0
  · intro h
    exact AnchorRes.noConfusion h
  · have hj0 : j0 ≤ idx - 3 := scan_adr1_le lnes _ _ hscan
    have hja : anchor_adr1_idx lnes j0 ≤ idx - 3 :=
      Nat.le_trans (anchor_adr1_idx_le lnes j0) hj0
    obtain ⟨a2, ha2⟩ := anchor_address2_some lnes (anchor_adr1_idx lnes j0)
      (idx - 2) (by omega) (by omega)
    dsimp only
    rw [ha2]
    intro hcon
    exact AnchorRes.noConfusion hcon

/-- Once some anchor at or below the current index fails its backward scan,
the whole loop returns the no-address result. -/
lemma parse_loop_fails (lnes : List Lne) (i : Nat) (hi : i < lnes.length)
    (hanch : is_anchor lnes i = true) (h3i : 3 ≤ i)
    (hscan : ∀ j, j ≤ i - 3 → is_adr1_shaped (lnes.getD j []) = false)
    (hsafe : ∀ k, k < lnes.length → is_anchor lnes k = true → 3 ≤ k) :
    ∀ n, i < n → n ≤ lnes.length → ∀ acc, parse_loop lnes n acc = .noAddress := by
  intro n
  induction n with
  | zero =>
    intro h
    omega
  | succ n ih =>
    intro hin hnle acc
    rw [parse_loop_succ]
    by_cases hni : n = i
    · subst hni
      rw [if_pos (by rw [show (is_zip (lnes.getD n []) &&
          ! is_invalid_zip (lnes.getD n [])) = true from hanch])]
      have : parse_anchor lnes n = .notFound := by
        unfold parse_anchor
        rw [if_neg (by omega), scan_adr1_none lnes (n - 3) hscan]
      rw [this]
    · have hin2 : i < n := by omega
      rcases han : is_anchor lnes n with - | -
      · rw [if_neg (by rw [show (is_zip (lnes.getD n []) &&
          ! is_invalid_zip (lnes.getD n [])) = false from han]; exact Bool.false_ne_true)]
        exact ih hin2 (by omega) acc
      · rw [if_pos (by rw [show (is_zip (lnes.getD n []) &&
          ! is_invalid_zip (lnes.getD n [])) = true from han])]
        have h3n : 3 ≤ n := hsafe n (by omega) han
        rcases hpa : parse_anchor lnes n with - | - | adr
        · exact absurd hpa (parse_anchor_no_panic lnes n h3n (by omega))
        · rfl
        · exact ih hin2 (by omega) (acc ++ [adr])

/-! ## Claims C3 and C9 -/

/-- The two-anchor fixture: the upper anchor (`"22222"`) has a
reconstructible address; the backward scan of the lower anchor (`"11111"`)
finds no address1-shaped line. -/
def lnes_two_anchors : List Lne :=
  [str "X Y", str "CITY ONE", str "ST", str "11111",
   str "200 OAK STREET", str "CITY TWO", str "ST", str "22222"]

/-- C3, counterexample: on `lnes_two_anchors` the whole extraction returns
the no-address result — the address reconstructible from the `"22222"`
anchor (shown parseable on its own lines in the second conjunct) is
discarded, where the claim promises it would still be returned. -/
theorem claim_C3_counterexample :
    parse_addresses lnes_two_anchors = .noAddress ∧
    parse_addresses [str "200 OAK STREET", str "CITY TWO", str "ST", str "22222"] =
      .found [{ address1 := str "200 OAK STREET", address2 := none,
                city := str "CITY TWO", state := str "ST", zip := str "22222" }] := by
  constructor
  · decide
  · decide

/-- C3 (amended): when the backward scan for any anchor finds no line of the
address-line-1 or PO-Box shape, `parse_addresses` abandons the whole
sequence with the no-address result, discarding the addresses of the other
anchors; the failure stays a local no-address outcome (no panic, no abort),
provided every anchor has at least three preceding lines (fewer can panic —
see C9). -/
theorem claim_C3_amended (lnes : List Lne)
    (hsafe : ∀ k, k < lnes.length → is_anchor lnes k = true → 3 ≤ k)
    (hfail : ∃ i, i < lnes.length ∧ is_anchor lnes i = true ∧
      ∀ j, j ≤ i - 3 → is_adr1_shaped (lnes.getD j []) = false) :
    parse_addresses lnes = .noAddress := by
  obtain ⟨i, hi, hanch, hscan⟩ := hfail
  exact parse_loop_fails lnes i hi hanch (hsafe i hi hanch) hscan hsafe
    lnes.length hi (Nat.le_refl _) []

/-- C3 (amended), witness: the two-anchor fixture discharges the
hypotheses. -/
theorem claim_C3_amended_witness :
    parse_addresses lnes_two_anchors = ParseResult.noAddress :=
  claim_C3_amended lnes_two_anchors (by decide)
    ⟨3, by decide, by decide, by
      intro j hj
      have hj0 : j = 0 := by omega
      subst hj0
      decide⟩

/-- C9: `parse_addresses` is not total.  A line sequence whose first or
second line is a valid, non-denylisted zip panics via the underflowing
accesses `lnes[idx - 1]`/`lnes[idx - 2]` when that anchor is processed
(shown concretely for both positions, and in general for any such anchor
not preceded in processing order by another anchor), so an anchor needs at
least two preceding lines for these accesses to be in range. -/
theorem claim_C9 :
    parse_addresses [str "12345"] = .panicked ∧
    parse_addresses [str "A ST", str "12345"] = .panicked ∧
    ∀ (lnes : List Lne) (i : Nat), i < lnes.length → is_anchor lnes i = true →
      i < 2 → (∀ k, i < k → k < lnes.length → is_anchor lnes k = false) →
      parse_addresses lnes = .panicked := by
  refine ⟨by decide, by decide, ?_⟩
  intro lnes i hi hanch hi2 hrest
  unfold parse_addresses
  rw [parse_loop_skip lnes (i + 1) lnes.length hi
    (fun k hk1 hk2 => hrest k hk1 hk2) [], parse_loop_succ,
    if_pos (by rw [show (is_zip (lnes.getD i []) &&
      ! is_invalid_zip (lnes.getD i [])) = true from hanch]),
    parse_anchor_lt2 lnes i hi2]

/-- C9, witness: the general part applied to the singleton zip line. -/
theorem claim_C9_witness :
    parse_addresses [str "54321"] = ParseResult.panicked :=
  claim_C9.2.2 [str "54321"] 0 (by decide) (by decide) (by decide)
    (by
      intro k hk1 hk2
      simp only [List.length_cons, List.length_nil] at hk2
      omega)

/-! ## Claim C2: the positive extraction theorem -/

/-- The space-joined concatenation built by the `address2` loop. -/
def join_spaces : List Lne → Lne
  | [] => []
  | m :: ms => ms.foldl (fun acc l => acc ++ ' ' :: l) m

/-- A 5-digit zip is accepted by `is_zip`. -/
lemma is_zip_of_zip5 (l : Lne) (h : is_zip5 l = true) : is_zip l = true := by
  unfold is_zip5 at h
  simp only [Bool.and_eq_true, decide_eq_true_eq] at h
  unfold is_zip
  rw [if_pos h.1]
  exact h.2

/-- Indexing past a prefix of an append. -/
lemma get?_app_right (l1 l2 : List Lne) (k : Nat) :
    (l1 ++ l2).get? (l1.length + k) = l2.get? k := by
  rw [List.get?_append_right (Nat.le_add_right _ _)]
  congr 1
  omega

/-- An in-range index yields its `getD` value. -/
lemma get?_of_lt (l : List Lne) (t : Nat) (h : t < l.length) :
    l.get? t = some (l.getD t []) := by
  rw [List.get?_eq_get h, List.getD_eq_get l [] h]

/-- `getD` from a `get?` fact. -/
lemma getD_of_get? (l : List Lne) (n : Nat) (v : Lne) (h : l.get? n = some v) :
    l.getD n [] = v := by
  have hlt : n < l.length := List.get?_eq_some.mp h |>.1
  rw [List.getD_eq_get l [] hlt]
  rw [List.get?_eq_get hlt] at h
  injection h

/-- Convert a shape fact to the literal scan condition. -/
lemma shaped_cond_true {l : Lne} (h : is_adr1_shaped l = true) :
    (re_address1_is_match l || re_po_box_is_match l) = true := h

/-- Convert a negative shape fact to the literal scan condition. -/
lemma shaped_cond_false {l : Lne} (h : is_adr1_shaped l = false) :
    ¬ (re_address1_is_match l || re_po_box_is_match l) = true := by
  have h2 : (re_address1_is_match l || re_po_box_is_match l) = false := h
  intro hcon
  exact Bool.false_ne_true (h2.symm.trans hcon)

/-- The backward scan finds the topmost shaped line. -/
lemma scan_adr1_reaches (lnes : List Lne) (p : Nat)
    (hq : is_adr1_shaped (lnes.getD p []) = true) :
    ∀ s, p ≤ s →
      (∀ k, p < k → k ≤ s → is_adr1_shaped (lnes.getD k []) = false) →
      scan_adr1 lnes s = some p := by
  intro s
  induction s with
  | zero =>
    intro hp _
    have hp0 : p = 0 := Nat.le_zero.mp hp
    subst hp0
    unfold scan_adr1
    rw [if_pos (shaped_cond_true hq)]
  | succ s ih =>
    intro hp hmid
    rcases Nat.eq_or_lt_of_le hp with heq | hlt
    · subst heq
      unfold scan_adr1
      rw [if_pos (shaped_cond_true hq)]
    · have hs : p ≤ s := Nat.lt_succ_iff.mp hlt
      have hns := hmid (s + 1) hlt (Nat.le_refl _)
      unfold scan_adr1
      rw [if_neg (shaped_cond_false hns)]
      exact ih hs fun k hk1 hk2 => hmid k hk1 (Nat.le_succ_of_le hk2)

/-- The `address2` loop accumulates exactly the lines it walks over. -/
lemma address2_cat_run (lnes : List Lne) (city : Nat) (ms : List Lne) :
    ∀ (j : Nat) (acc : Lne) (fuel : Nat),
      j + ms.length = city →
      (∀ t, t < ms.length → lnes.get? (j + t) = some (ms.getD t [])) →
      city - j < fuel →
      address2_cat lnes city fuel j acc =
        some (ms.foldl (fun a l => a ++ ' ' :: l) acc) := by
  induction ms with
  | nil =>
    intro j acc fuel hlen _ hf
    simp only [List.length_nil, Nat.add_zero] at hlen
    rcases fuel with - | fuel
    · omega
    · unfold address2_cat
      rw [if_pos hlen]
      rfl
  | cons m ms ih =>
    intro j acc fuel hlen hget hf
    rcases fuel with - | fuel
    · omega
    · have hj : j ≠ city := by
        simp only [List.length_cons] at hlen
        omega
      have h0 : lnes.get? j = some m := by
        have := hget 0 (by simp)
        simpa using this
      unfold address2_cat
      rw [if_neg hj, h0]
      have hrec := ih (j + 1) (acc ++ ' ' :: m) fuel
        (by simp only [List.length_cons] at hlen; omega)
        (fun t ht => by
          have := hget (t + 1) (by simp only [List.length_cons]; omega)
          rw [show j + (t + 1) = j + 1 + t by omega] at this
          simpa using this)
        (by omega)
      exact hrec

/-- C2 (amended): for every normalized line sequence with exactly one
zip-shaped line — a 5-digit zip not on the invalid-zip denylist —
immediately preceded by a state line, itself preceded by a city line, with
exactly one earlier line of the address-line-1 or PO-Box shape,
`parse_addresses` returns exactly one `Address` whose `zip`, `state`,
`city` and `address1` are those lines, and whose `address2` is the
space-joined concatenation of the lines strictly between `address1` and the
city when any exist, and `None` otherwise. -/
theorem claim_C2_amended (pre mid post : List Lne) (a1 city st zip : Lne)
    (hzip5 : is_zip5 zip = true) (hvalid : is_invalid_zip zip = false)
    (hpre_z : ∀ l ∈ pre, is_zip l = false) (ha1_z : is_zip a1 = false)
    (hmid_z : ∀ l ∈ mid, is_zip l = false) (hcity_z : is_zip city = false)
    (hst_z : is_zip st = false) (hpost_z : ∀ l ∈ post, is_zip l = false)
    (hqual : is_adr1_shaped a1 = true)
    (hpre_q : ∀ l ∈ pre, is_adr1_shaped l = false)
    (hmid_q : ∀ l ∈ mid, is_adr1_shaped l = false) :
    parse_addresses (pre ++ a1 :: (mid ++ city :: st :: zip :: post)) =
      .found [{ address1 := a1,
                address2 := if mid = [] then none else some (join_spaces mid),
                city := city, state := st, zip := zip }] := by
  set L := pre ++ a1 :: (mid ++ city :: st :: zip :: post) with hL
  set P := pre.length with hP
  set M := mid.length with hM
  -- index bookkeeping
  have hget_tail : ∀ k, L.get? (P + k) =
      (a1 :: (mid ++ city :: st :: zip :: post)).get? k := by
    intro k
    rw [hL, hP]
    exact get?_app_right pre _ k
  have hget_a1 : L.get? P = some a1 := by
    have := hget_tail 0
    simpa using this
  have hget_mid2 : ∀ k, L.get? (P + 1 + k) =
      (mid ++ city :: st :: zip :: post).get? k := by
    intro k
    have := hget_tail (1 + k)
    rw [show P + (1 + k) = P + 1 + k by omega, Nat.add_comm 1 k] at this
    simpa using this
  have hget_mid : ∀ k, k < M → L.get? (P + 1 + k) = some (mid.getD k []) := by
    intro k hk
    rw [hget_mid2 k, List.get?_append (by omega), get?_of_lt mid k (by omega)]
  have hget_city2 : ∀ k, L.get? (P + 1 + (M + k)) =
      (city :: st :: zip :: post).get? k := by
    intro k
    rw [hget_mid2 (M + k), List.get?_append_right (by omega)]
    congr 1
    omega
  have hget_city : L.get? (P + M + 1) = some city := by
    have := hget_city2 0
    rw [show P + 1 + (M + 0) = P + M + 1 by omega] at this
    simpa using this
  have hget_st : L.get? (P + M + 2) = some st := by
    have := hget_city2 1
    rw [show P + 1 + (M + 1) = P + M + 2 by omega] at this
    simpa using this
  have hget_zip : L.get? (P + M + 3) = some zip := by
    have := hget_city2 2
    rw [show P + 1 + (M + 2) = P + M + 3 by omega] at this
    simpa using this
  have hget_post : ∀ k, L.get? (P + M + 4 + k) = post.get? k := by
    intro k
    have := hget_city2 (3 + k)
    rw [show P + 1 + (M + (3 + k)) = P + M + 4 + k by omega,
      Nat.add_comm 3 k, show k + 3 = k + 2 + 1 by omega, List.get?_cons_succ,
      show k + 2 = k + 1 + 1 by omega, List.get?_cons_succ,
      List.get?_cons_succ] at this
    exact this
  have hget_pre : ∀ k, k < P → L.get? k = some (pre.getD k []) := by
    intro k hk
    rw [hL, List.get?_append (by omega), get?_of_lt pre k (by omega)]
  have hLlen : L.length = P + M + 4 + post.length := by
    rw [hL]
    simp only [List.length_append, List.length_cons]
    omega
  -- every line below the anchor fails `is_zip`
  have hlow_nz : ∀ k, k < P + M + 3 → is_zip (L.getD k []) = false := by
    intro k hk
    by_cases h1 : k < P
    · rw [getD_of_get? L k _ (hget_pre k h1)]
      exact hpre_z _ (List.get?_mem (get?_of_lt pre k (by omega)))
    · by_cases h2 : k = P
      · rw [h2, getD_of_get? L P a1 hget_a1]
        exact ha1_z
      · by_cases h3 : k < P + M + 1
        · have hk2 : k = P + 1 + (k - P - 1) := by omega
          rw [hk2, getD_of_get? L _ _ (hget_mid (k - P - 1) (by omega))]
          exact hmid_z _ (List.get?_mem (get?_of_lt mid _ (by omega)))
        · by_cases h4 : k = P + M + 1
          · rw [h4, getD_of_get? L _ city hget_city]
            exact hcity_z
          · have h5 : k = P + M + 2 := by omega
            rw [h5, getD_of_get? L _ st hget_st]
            exact hst_z
  have hlow_na : ∀ k, k < P + M + 3 → is_anchor L k = false := by
    intro k hk
    unfold is_anchor
    rw [hlow_nz k hk]
    rfl
  -- every line above the anchor fails `is_zip`
  have hhigh_na : ∀ k, P + M + 3 < k → k < L.length → is_anchor L k = false := by
    intro k hk1 hk2
    have hk3 : k = P + M + 4 + (k - P - M - 4) := by omega
    have hlt : k - P - M - 4 < post.length := by omega
    have hp : L.get? k = some (post.getD (k - P - M - 4) []) := by
      conv_lhs => rw [hk3]
      rw [hget_post _, get?_of_lt post _ hlt]
    unfold is_anchor
    rw [getD_of_get? L k _ hp,
      hpost_z _ (List.get?_mem (get?_of_lt post _ hlt))]
    rfl
  -- the anchor line itself
  have hanch : is_anchor L (P + M + 3) = true := by
    unfold is_anchor
    rw [getD_of_get? L _ zip hget_zip, is_zip_of_zip5 zip hzip5, hvalid]
    rfl
  -- run the loop down to the anchor
  unfold parse_addresses
  rw [show L.length = (P + M + 3) + 1 + post.length by omega,
    parse_loop_skip L ((P + M + 3) + 1) ((P + M + 3) + 1 + post.length)
      (by omega) (fun k hk1 hk2 => hhigh_na k (by omega) (by omega)) [],
    parse_loop_succ, if_pos (by
      have := hanch
      unfold is_anchor at this
      rw [this])]
  -- the anchor produces exactly the claimed address
  have hscan : scan_adr1 L (P + M + 3 - 3) = some P := by
    rw [show P + M + 3 - 3 = P + M by omega]
    apply scan_adr1_reaches L P
      (by rw [getD_of_get? L P a1 hget_a1]; exact hqual) (P + M) (by omega)
    intro k hk1 hk2
    have hk3 : k = P + 1 + (k - P - 1) := by omega
    rw [hk3, getD_of_get? L _ _ (hget_mid (k - P - 1) (by omega))]
    exact hmid_q _ (List.get?_mem (get?_of_lt mid _ (by omega)))
  have hidx : anchor_adr1_idx L P = P := by
    unfold anchor_adr1_idx
    rcases hP0 : P with - | p2
    · rw [if_neg (by simp)]
    · rw [if_neg (by
        have hpq : is_adr1_shaped (L.getD p2 []) = false := by
          rw [getD_of_get? L p2 _ (hget_pre p2 (by omega))]
          exact hpre_q _ (List.get?_mem (get?_of_lt pre p2 (by omega)))
        unfold is_adr1_shaped at hpq
        have hre : re_address1_is_match (L.getD p2 []) = false :=
          (Bool.or_eq_false_iff.mp hpq).1
        rw [show (p2 + 1 : Nat) - 1 = p2 by omega, hre]
        simp)]
  have haddr2 : anchor_address2 L P (P + M + 3 - 2) =
      some (if mid = [] then none else some (join_spaces mid)) := by
    rw [show P + M + 3 - 2 = P + M + 1 by omega]
    unfold anchor_address2
    by_cases hmids : mid = []
    · have hM0 : M = 0 := by rw [hM, hmids]; rfl
      rw [if_pos (by omega), if_pos hmids]
    · obtain ⟨m, ms, hmm⟩ : ∃ m ms, mid = m :: ms := by
        rcases mid with - | ⟨m, ms⟩
        · exact absurd rfl hmids
        · exact ⟨m, ms, rfl⟩
      have hM1 : M = ms.length + 1 := by rw [hM, hmm]; simp
      rw [if_neg (by omega)]
      have hm0 : L.get? (P + 1) = some m := by
        have := hget_mid 0 (by omega)
        rw [hmm] at this
        simpa using this
      rw [hm0]
      dsimp only
      rw [address2_cat_run L (P + M + 1) ms (P + 2) m (L.length + 1)
        (by omega)
        (fun t ht => by
          have := hget_mid (t + 1) (by omega)
          rw [show P + 1 + (t + 1) = P + 2 + t by omega, hmm] at this
          simpa using this)
        (by omega)]
      rw [if_neg hmids, hmm]
      rfl
  have hpa : parse_anchor L (P + M + 3) =
      .ok { address1 := a1,
            address2 := if mid = [] then none else some (join_spaces mid),
            city := city, state := st, zip := zip } := by
    unfold parse_anchor
    rw [if_neg (by omega), hscan]
    dsimp only
    rw [hidx, haddr2]
    dsimp only
    rw [getD_of_get? L P a1 hget_a1,
      show P + M + 3 - 2 = P + M + 1 by omega,
      getD_of_get? L _ city hget_city,
      show P + M + 3 - 1 = P + M + 2 by omega,
      getD_of_get? L _ st hget_st,
      getD_of_get? L _ zip hget_zip]
  rw [hpa]
  dsimp only
  rw [parse_loop_skip L 0 (P + M + 3) (Nat.zero_le _)
    (fun k hk1 hk2 => hlow_na k hk2) _]
  rfl

/-- C2 (amended), witness: a minimal four-line sequence. -/
theorem claim_C2_amended_witness :
    parse_addresses [str "100 MAIN STREET", str "ELKO", str "NV", str "12345"] =
      ParseResult.found [{ address1 := str "100 MAIN STREET", address2 := none,
                           city := str "ELKO", state := str "NV",
                           zip := str "12345" }] := by
  have h := claim_C2_amended [] [] [] (str "100 MAIN STREET") (str "ELKO")
    (str "NV") (str "12345") (by decide) (by decide)
    (by intro l hl; simp at hl) (by decide)
    (by intro l hl; simp at hl) (by decide) (by decide)
    (by intro l hl; simp at hl) (by decide)
    (by intro l hl; simp at hl) (by intro l hl; simp at hl)
  simpa using h

/-- C2, counterexample: the claim as stated omits the invalid-zip denylist.
This sequence satisfies the claim's hypotheses — exactly one 5-digit zip
line (`"89801"`), preceded by a state and a city line, with a qualifying
address1 line earlier — yet extraction returns no address, because the zip
is denylisted. -/
theorem claim_C2_counterexample :
    is_zip5 (str "89801") = true ∧
    ([str "100 MAIN STREET", str "ELKO", str "NV", str "89801"].filter is_zip) =
      [str "89801"] ∧
    is_adr1_shaped (str "100 MAIN STREET") = true ∧
    parse_addresses [str "100 MAIN STREET", str "ELKO", str "NV", str "89801"] =
      .noAddress := by
  refine ⟨by decide, by decide, by decide, by decide⟩

/-! ## The Override Table (`src/house.rs` `edit_person_house_lnes`)

Each per-entity arm is a `for idx in (0..lnes.len()).rev()` loop of edits;
`Vec::remove`, `Vec::insert` and index assignment panic out of range
(`none`). -/

/-- The identity key of `src/models.rs` `Person` (the remaining fields play
no role in the override table). -/
structure Person where
  name_fst : Lne
  name_lst : Lne
deriving DecidableEq, Repr, Inhabited

/-- `Vec::remove`: panics when the index is out of range. -/
def vec_remove (lnes : List Lne) (i : Nat) : Option (List Lne) :=
  if i < lnes.length then some (lnes.eraseIdx i) else none

/-- `Vec::insert`: panics when the index exceeds the length. -/
def vec_insert (lnes : List Lne) (i : Nat) (x : Lne) : Option (List Lne) :=
  if i ≤ lnes.length then some (lnes.insertNth i x) else none

/-- `lnes[i] = x`: panics when the index is out of range. -/
def vec_set (lnes : List Lne) (i : Nat) (x : Lne) : Option (List Lne) :=
  if i < lnes.length then some (lnes.set i x) else none

/-- Rust `str::replace` (all non-overlapping occurrences, left to right). -/
def lne_replace (needle repl : Lne) : Lne → Lne
  | [] => []
  | c :: cs =>
    if h : (starts_with (c :: cs) needle && ! needle.isEmpty) = true then
      repl ++ lne_replace needle repl ((c :: cs).drop needle.length)
    else c :: lne_replace needle repl cs
termination_by l => l.length
decreasing_by
  · have hne : needle.isEmpty = false := by
      have h2 := (Bool.and_eq_true _ _).mp h |>.2
      rcases hi : needle.isEmpty with - | -
      · rfl
      · rw [hi] at h2
        exact absurd h2 (by decide)
    have hlen : 1 ≤ needle.length := by
      rcases needle with - | _
      · exact absurd hne (by decide)
      · simp
    simp only [List.length_drop, List.length_cons]
    omega
  · simp only [List.length_cons]
    omega

/-- The reverse-index loop shared by all arms
(`for idx in (0..lnes.len()).rev()`): fuel `idx + 1` processes index `idx`. -/
def rev_loop (step : List Lne → Nat → Option (List Lne)) :
    Nat → List Lne → Option (List Lne)
  | 0, lnes => some lnes
  | idx + 1, lnes =>
    match step lnes idx with
    | none => none
    | some lnes2 => rev_loop step idx lnes2

/-- Run an arm's loop over the whole vector. -/
def run_rev_loop (step : List Lne → Nat → Option (List Lne))
    (lnes : List Lne) : Option (List Lne) :=
  rev_loop step lnes.length lnes

/-- `("Matthew", "Rosendale")` arm. -/
def hstep_rosendale (lnes : List Lne) (idx : Nat) : Option (List Lne) :=
  match lnes.get? idx with
  | none => none
  | some lne =>
    if lne = str "3300 2ND AVENUE N SUITES 7-8" then
      vec_set lnes idx (str "3300 2ND AVENUE N SUITE 7")
    else some lnes

/-- `("Terri", "Sewell")` arm. -/
def hstep_sewell (lnes : List Lne) (idx : Nat) : Option (List Lne) :=
  match lnes.get? idx with
  | none => none
  | some lne =>
    if lne = str "101 SOUTH LAWRENCE ST COURTHOUSE ANNEX 3" then
      vec_set lnes idx (str "101 SOUTH LAWRENCE ST")
    else some lnes

/-- `("Joe", "Wilson")` arm. -/
def hstep_wilson (lnes : List Lne) (idx : Nat) : Option (List Lne) :=
  match lnes.get? idx with
  | none => none
  | some lne =>
    if lne = str "1700 SUNSET BLVD (US 378), SUITE 1" then
      vec_set lnes idx (str "1700 SUNSET BLVD STE 1")
    else some lnes

/-- `("Robert", "Wittman")` arm. -/
def hstep_wittman (lnes : List Lne) (idx : Nat) : Option (List Lne) :=
  match lnes.get? idx with
  | none => none
  | some lne =>
    if lne = str "508 CHURCH LANE" ∨ lne = str "307 MAIN STREET" then
      vec_remove lnes idx
    else some lnes

/-- `("Andy", "Biggs")` arm. -/
def hstep_biggs (lnes : List Lne) (idx : Nat) : Option (List Lne) :=
  match lnes.get? idx with
  | none => none
  | some lne =>
    if lne = str "SUPERSTITION PLAZA" then vec_remove lnes idx else some lnes

/-- `("John", "Carter")` arm. -/
def hstep_carter (lnes : List Lne) (idx : Nat) : Option (List Lne) :=
  match lnes.get? idx with
  | none => none
  | some lne =>
    if lne = str "SUITE # I-10" then vec_remove lnes idx else some lnes

/-- `("Michael", "Cloud")` arm. -/
def hstep_cloud (lnes : List Lne) (idx : Nat) : Option (List Lne) :=
  match lnes.get? idx with
  | none => none
  | some lne =>
    if lne = str "TOWER II, SUITE 980" then
      vec_set lnes idx (str "SUITE 980")
    else some lnes

/-- `("Tony", "Gonzales")` arm. -/
def hstep_gonzales (lnes : List Lne) (idx : Nat) : Option (List Lne) :=
  match lnes.get? idx with
  | none => none
  | some lne =>
    if lne_contains lne (str "(BY APPT ONLY)") = true then
      vec_set lnes idx (lne_replace (str " (BY APPT ONLY)") (str "") lne)
    else some lnes

/-- `("Garret", "Graves")` arm. -/
def hstep_graves (lnes : List Lne) (idx : Nat) : Option (List Lne) :=
  match lnes.get? idx with
  | none => none
  | some lne =>
    if lne_contains lne (str "615 E WORTHY STREET GONZALES") = true then
      match vec_set lnes idx (str "GONZALES") with
      | none => none
      | some lnes2 => vec_insert lnes2 idx (str "615 E WORTHY ST")
    else some lnes

/-- `("Jared", "Huffman")` arm. -/
def hstep_huffman (lnes : List Lne) (idx : Nat) : Option (List Lne) :=
  match lnes.get? idx with
  | none => none
  | some lne =>
    if lne = str "430 NORTH FRANKLIN ST FORT BRAGG, CA 95437" then
      match vec_set lnes idx (str "FORT BRAGG, CA 95437") with
      | none => none
      | some lnes2 => vec_insert lnes2 idx (str "430 NORTH FRANKLIN ST")
    else if lne_contains lne (str "FORT BRAGG 95437") = true then
      vec_set lnes idx (str "FORT BRAGG, CA 95437")
    else some lnes

/-- `("Bill", "Huizenga")` arm. -/
def hstep_huizenga (lnes : List Lne) (idx : Nat) : Option (List Lne) :=
  match lnes.get? idx with
  | none => none
  | some lne =>
    if lne_contains lne (str "108 PORTAGE, MI 49002") = true then
      vec_set lnes idx
        (lne_replace (str "108 PORTAGE, MI 49002")
          (str "108\nPORTAGE, MI 49002") lne)
    else some lnes

/-- `("Mike", "Johnson")` arm. -/
def hstep_johnson (lnes : List Lne) (idx : Nat) : Option (List Lne) :=
  match lnes.get? idx with
  | none => none
  | some lne =>
    if lne = str "444 CASPARI DRIVE" ∨ lne = str "SOUTH HALL ROOM 224" then
      vec_remove lnes idx
    else if lne = str "PO BOX 4989 (MAILING)" then
      vec_set lnes idx (str "PO BOX 4989")
    else some lnes

/-- `("Michael", "Lawler")` arm. -/
def hstep_lawler (lnes : List Lne) (idx : Nat) : Option (List Lne) :=
  match lnes.get? idx with
  | none => none
  | some lne =>
    if lne = str "PO BOX 1645" then vec_remove lnes idx else some lnes

/-- `("Anna Paulina", "Luna")` arm. -/
def hstep_luna (lnes : List Lne) (idx : Nat) : Option (List Lne) :=
  match lnes.get? idx with
  | none => none
  | some lne =>
    if lne_contains lne (str "OFFICE SUITE:") = true then
      vec_set lnes idx (lne_replace (str "OFFICE SUITE:") (str "STE") lne)
    else some lnes

/-- `("Daniel", "Meuser")` arm. -/
def hstep_meuser (lnes : List Lne) (idx : Nat) : Option (List Lne) :=
  match lnes.get? idx with
  | none => none
  | some lne =>
    if lne = str "SUITE 110, LOSCH PLAZA" then
      vec_set lnes idx (str "SUITE 110")
    else some lnes

/-- `("Max", "Miller")` arm: inserts `"143 CHOB"` before the first
`"WASHINGTON"` found from the bottom (skipping index 0), then breaks. -/
def miller_loop : Nat → List Lne → Option (List Lne)
  | 0, lnes => some lnes
  | idx + 1, lnes =>
    match lnes.get? idx with
    | none => none
    | some lne =>
      if lne = str "WASHINGTON" ∧ idx ≠ 0 then
        vec_insert lnes (idx - 1) (str "143 CHOB")
      else miller_loop idx lnes

/-- `("Frank", "Pallone")` arm. -/
def hstep_pallone (lnes : List Lne) (idx : Nat) : Option (List Lne) :=
  match lnes.get? idx with
  | none => none
  | some lne =>
    if lne = str "67/69 CHURCH ST" then
      vec_set lnes idx (str "67 CHURCH ST")
    else some lnes

/-- `("Stacey", "Plaskett")` arm. -/
def hstep_plaskett (lnes : List Lne) (idx : Nat) : Option (List Lne) :=
  match lnes.get? idx with
  | none => none
  | some lne =>
    if lne = str "FREDERIKSTED, VI 00840" then
      vec_set lnes idx (str "ST CROIX, VI 00840")
    else some lnes

/-- `("Raul", "Grijalva")` arm: on `"146 N STATE AVENUE"` the code removes
`lnes[idx + 1]` *then* `lnes[idx]`; on a `"MAILING ADDRESS"` prefix it
removes `lnes[idx + 1]`, prepends `"PO BOX "` and writes it back at `idx`.
Both paths index `idx + 1`, which panics when the matched line is last. -/
def hstep_grijalva (lnes : List Lne) (idx : Nat) : Option (List Lne) :=
  match lnes.get? idx with
  | none => none
  | some lne =>
    if lne = str "146 N STATE AVENUE" then
      match vec_remove lnes (idx + 1) with
      | none => none
      | some lnes2 => vec_remove lnes2 idx
    else if starts_with lne (str "MAILING ADDRESS") = true then
      match lnes.get? (idx + 1) with
      | none => none
      | some nxt => vec_set (lnes.eraseIdx (idx + 1)) idx (str "PO BOX " ++ nxt)
    else some lnes

/-- `src/house.rs` `edit_person_house_lnes`: dispatch on the entity identity
(the `match (name_fst, name_lst)` of the source, with the `("", "")` and
wildcard arms both no-ops). -/
def edit_person_house_lnes (per : Person) (lnes : List Lne) :
    Option (List Lne) :=
  if per.name_fst = str "Matthew" ∧ per.name_lst = str "Rosendale" then
    run_rev_loop hstep_rosendale lnes
  else if per.name_fst = str "Terri" ∧ per.name_lst = str "Sewell" then
    run_rev_loop hstep_sewell lnes
  else if per.name_fst = str "Joe" ∧ per.name_lst = str "Wilson" then
    run_rev_loop hstep_wilson lnes
  else if per.name_fst = str "Robert" ∧ per.name_lst = str "Wittman" then
    run_rev_loop hstep_wittman lnes
  else if per.name_fst = str "Andy" ∧ per.name_lst = str "Biggs" then
    run_rev_loop hstep_biggs lnes
  else if per.name_fst = str "John" ∧ per.name_lst = str "Carter" then
    run_rev_loop hstep_carter lnes
  else if per.name_fst = str "Michael" ∧ per.name_lst = str "Cloud" then
    run_rev_loop hstep_cloud lnes
  else if per.name_fst = str "Tony" ∧ per.name_lst = str "Gonzales" then
    run_rev_loop hstep_gonzales lnes
  else if per.name_fst = str "Garret" ∧ per.name_lst = str "Graves" then
    run_rev_loop hstep_graves lnes
  else if per.name_fst = str "Jared" ∧ per.name_lst = str "Huffman" then
    run_rev_loop hstep_huffman lnes
  else if per.name_fst = str "Bill" ∧ per.name_lst = str "Huizenga" then
    run_rev_loop hstep_huizenga lnes
  else if per.name_fst = str "Mike" ∧ per.name_lst = str "Johnson" then
    run_rev_loop hstep_johnson lnes
  else if per.name_fst = str "Michael" ∧ per.name_lst = str "Lawler" then
    run_rev_loop hstep_lawler lnes
  else if per.name_fst = str "Anna Paulina" ∧ per.name_lst = str "Luna" then
    run_rev_loop hstep_luna lnes
  else if per.name_fst = str "Daniel" ∧ per.name_lst = str "Meuser" then
    run_rev_loop hstep_meuser lnes
  else if per.name_fst = str "Max" ∧ per.name_lst = str "Miller" then
    miller_loop lnes.length lnes
  else if per.name_fst = str "Frank" ∧ per.name_lst = str "Pallone" then
    run_rev_loop hstep_pallone lnes
  else if per.name_fst = str "Stacey" ∧ per.name_lst = str "Plaskett" then
    run_rev_loop hstep_plaskett lnes
  else if per.name_fst = str "Raul" ∧ per.name_lst = str "Grijalva" then
    run_rev_loop hstep_grijalva lnes
  else some lnes

/-- The Grijalva identity key. -/
def grijalva_person : Person :=
  { name_fst := str "Raul", name_lst := str "Grijalva" }

/-- C4: the override rules are *not* panic-free on every input sequence.
When the Grijalva rule's literal `"146 N STATE AVENUE"` is present as the
last line (a changed source page), `lnes.remove(idx + 1)` indexes out of
range and panics (`none`), contradicting the claim; when the rule's
literals are absent, the rule is indeed a no-op (second conjunct). -/
theorem claim_C4_bug :
    edit_person_house_lnes grijalva_person [str "146 N STATE AVENUE"] = none ∧
    edit_person_house_lnes grijalva_person [str "UNRELATED LINE"] =
      some [str "UNRELATED LINE"] := by
  refine ⟨by decide, by decide⟩

end Adr
